import Mathlib

/-!
Verification of the month-accounting engine of the Budget Tracker web app
(`src/app.js`).  The repository file contains two variants of the same
single-file application (a tidy rewrite followed by the original); where the
two variants agree we embed the shared definition once, and where they differ
the comments say which variant a definition follows.

Modelling conventions for the shallow embedding:
* JS numbers are modelled as exact rationals (`Rat`); day-of-month, cutoff
  days and month arithmetic use `Int`.  All monetary arithmetic in the
  claims is small-decimal arithmetic where JS doubles and rationals agree.
* Calendar dates (`YYYY-MM-DD` ISO strings parsed with
  `new Date(iso + "T00:00:00")`) are modelled as a year/month/day record;
  accounting months (`YYYY-MM` strings) as a year/month record.  The
  source compares such strings lexicographically, which on the canonical
  zero-padded rendering coincides with the componentwise lexicographic
  order used here.
* The Firestore `transactions` collection is an association list from the
  document id (a `String`, built exactly as the source builds it) to the
  document data; `setDoc` with a deterministic id is an upsert.  The
  generated documents are always written with their full field set, so the
  `merge: true` write is modelled as replacement.  The wall-clock audit
  fields `createdAt`/`updatedAt` are not part of the modelled state.
* `String.prototype.trim`/`toLowerCase` and lexicographic string
  comparison (`localeCompare`) are re-implemented over the character list
  of the string so that they evaluate by `decide` (ASCII inputs).
-/

/-! ### Utilities (src/app.js §0) -/

/-- `pad2`: `String(n).padStart(2, "0")`. -/
def pad2 (n : Int) : String :=
  if 0 ≤ n ∧ n < 10 then "0" ++ toString n else toString n

/-- `clampInt(v, min, max, _)` for an already-numeric `v`:
`Math.max(min, Math.min(max, n))`. -/
def clampInt (n lo hi : Int) : Int := max lo (min hi n)

/-- `Number(x.toFixed(2))` for a non-negative JS number: round to the nearest
multiple of 1/100, ties away from zero (here: up). -/
def round2 (x : Rat) : Rat := (⌊x * 100 + 1/2⌋ : Int) / 100

/-- A monetary value that is a whole number of cents (the persisted totals of
the data model carry 2-decimal precision). -/
def isCents (x : Rat) : Prop := ∃ n : Int, x = (n : Rat) / 100

/-- `String.prototype.toLowerCase` (ASCII fragment). -/
def jsToLower (s : String) : String := ⟨s.data.map Char.toLower⟩

/-- `String.prototype.trim`: drop leading and trailing whitespace. -/
def jsTrim (s : String) : String :=
  ⟨((s.data.dropWhile Char.isWhitespace).reverse.dropWhile Char.isWhitespace).reverse⟩

/-- Code-point comparison of characters (JS string comparison is by UTF-16
code unit; over the ASCII data appearing in the app the two agree). -/
def charLt (a b : Char) : Bool := a.toNat < b.toNat

/-- Lexicographic order on character lists. -/
def listLexLt : List Char → List Char → Bool
  | [], [] => false
  | [], _ :: _ => true
  | _ :: _, [] => false
  | a :: as, b :: bs => if charLt a b then true else if charLt b a then false else listLexLt as bs

/-- Lexicographic string comparison: `a < b`, i.e. `a.localeCompare(b) < 0`
modelled as code-point order. -/
def strLt (a b : String) : Bool := listLexLt a.data b.data

/-! ### Date / month arithmetic (src/app.js §0, both variants identical) -/

/-- An accounting month `YYYY-MM` (the value of `toYM`). -/
structure YM where
  year : Int
  month : Int
deriving DecidableEq, Repr

/-- A calendar date `YYYY-MM-DD` as recovered by
`new Date(iso + "T00:00:00")` via `getFullYear/getMonth/getDate`. -/
structure CalDate where
  year : Int
  month : Int
  day : Int
deriving DecidableEq, Repr

/-- `toYM(d)` for a parsed date `d`. -/
def CalDate.toYM (d : CalDate) : YM := ⟨d.year, d.month⟩

/-- Canonical `YYYY-MM` rendering of a month (as produced by `toYM`). -/
def YM.toStr (ym : YM) : String := toString ym.year ++ "-" ++ pad2 ym.month

/-- Canonical ISO rendering of a date (as produced by `todayISO` and
`dateFromYMDay`). -/
def CalDate.toISO (d : CalDate) : String :=
  toString d.year ++ "-" ++ pad2 d.month ++ "-" ++ pad2 d.day

/-- A structurally valid calendar date (month in range, day in the common
range of every month; full month-length validity is not needed by the
claims). -/
def CalDate.Valid (d : CalDate) : Prop :=
  1 ≤ d.month ∧ d.month ≤ 12 ∧ 1 ≤ d.day ∧ d.day ≤ 31

instance (d : CalDate) : Decidable d.Valid := by unfold CalDate.Valid; infer_instance

/-- `addMonthsYM(ym, add)`: `new Date(y, m - 1, 1)` followed by
`setMonth(getMonth() + add)`; the day is 1, so this is pure month-index
arithmetic with floor normalization into the year. -/
def addMonthsYM (ym : YM) (add : Int) : YM :=
  let total := ym.year * 12 + (ym.month - 1) + add
  ⟨total / 12, total % 12 + 1⟩

/-- `dateFromYMDay(ym, day)`: the day is clamped to `[1, 28]` (fallback 1
applies only to non-numeric input, which the record model excludes). -/
def dateFromYMDay (ym : YM) (day : Int) : CalDate :=
  ⟨ym.year, ym.month, clampInt day 1 28⟩

/-- `monthsBetweenYM(a, b) = (by - ay) * 12 + (bm - am)`. -/
def monthsBetweenYM (a b : YM) : Int := (b.year - a.year) * 12 + (b.month - a.month)

/-- Strict order on months; the source compares the `YYYY-MM` strings, which
on canonical renderings is this lexicographic order. -/
def YM.lt (a b : YM) : Prop :=
  a.year < b.year ∨ (a.year = b.year ∧ a.month < b.month)

instance : DecidableRel YM.lt := fun a b => by unfold YM.lt; infer_instance

/-- `ymInRange(ym, startYM, endYM)`; `none` models a missing/empty (falsy)
bound. -/
def ymInRange (ym : YM) (startYM endYM : Option YM) : Bool :=
  (match startYM with
   | none => true
   | some s => !decide (YM.lt ym s)) &&
  (match endYM with
   | none => true
   | some e => !decide (YM.lt e ym))

/-- `computeEffectiveMonth(dateISO, cutoffDay)` (both variants, lines 105–109
and 2791–2796): if the day of month is `>= cutoffDay` the effective month is
the next calendar month, otherwise the date's own calendar month. -/
def computeEffectiveMonth (d : CalDate) (cutoffDay : Int) : YM :=
  if cutoffDay ≤ d.day then addMonthsYM d.toYM 1 else d.toYM

/-! ### Transactions and the keyed document store -/

/-- A transaction document.  The generated documents of the claims write the
fields below; absent fields carry their defensive default (spec §7).  The
wall-clock `createdAt`/`updatedAt` fields are outside the modelled state. -/
structure Tx where
  date : Option CalDate := none
  type : String := "expense"
  group : String := ""
  category : String := ""
  amount : Rat := 0
  effectiveMonth : Option YM := none
  isRecurring : Bool := false
  recurringId : String := ""
  sourceMonth : Option YM := none
  isDebtPayment : Bool := false
  debtId : String := ""
  month : Option YM := none
  interest : Rat := 0
  principal : Rat := 0
  balanceAfter : Rat := 0
  isFundContribution : Bool := false
  fundId : String := ""
deriving DecidableEq, Repr

/-- The `transactions` collection: document id to document data, in creation
order. -/
abbrev Store := List (String × Tx)

/-- Does a document with this id exist? -/
def hasKey (s : Store) (k : String) : Bool := s.any (fun p => decide (p.1 = k))

/-- The data stored at an id. -/
def lookupKey (s : Store) (k : String) : Option Tx :=
  (s.find? (fun p => decide (p.1 = k))).map Prod.snd

/-- Number of documents carrying this id (1 in any real store). -/
def countKey (s : Store) (k : String) : Nat := s.countP (fun p => decide (p.1 = k))

/-- The document ids of a store, in order. -/
def storeKeys (s : Store) : List String := s.map Prod.fst

/-- `setDoc(doc(…, k), v, { merge: true })` for a full-field write `v`:
replace the document at `k`, or create it. -/
def upsert (s : Store) (k : String) (v : Tx) : Store :=
  if hasKey s k then s.map (fun p => if p.1 = k then (k, v) else p)
  else s ++ [(k, v)]

/-- Issue a batch of keyed writes in order (`Promise.all` of independent
`setDoc`s; the store applies each upsert). -/
def applyWrites (s : Store) (ws : List (String × Tx)) : Store :=
  ws.foldl (fun acc kv => upsert acc kv.1 kv.2) s

/-! ### Deterministic ids for generated transactions (src/app.js 116–119) -/

/-- `rec_<recurringId>_<dateISO>`. -/
def recurringTxDocId (recurringId : String) (dateISO : String) : String :=
  "rec_" ++ recurringId ++ "_" ++ dateISO

/-- `bill_<billId>_<dateISO>`. -/
def billTxDocId (billId : String) (dateISO : String) : String :=
  "bill_" ++ billId ++ "_" ++ dateISO

/-- `debtpay_<debtId>_<ym>`. -/
def debtPayTxDocId (debtId : String) (ym : String) : String :=
  "debtpay_" ++ debtId ++ "_" ++ ym

/-- `fund_<fundId>_<ym>_<dateISO>`. -/
def fundContribTxDocId (fundId : String) (ym : String) (dateISO : String) : String :=
  "fund_" ++ fundId ++ "_" ++ ym ++ "_" ++ dateISO

/-! ### Recurrence materializer (src/app.js 759–788 / 3457–3485) -/

/-- A recurring income/expense rule; `startMonth = none` models an
empty/missing (falsy) `startMonth`, `endMonth = none` an open-ended rule. -/
structure RecurringRule where
  id : String
  type : String
  group : String
  category : String
  amount : Rat
  dayOfMonth : Int
  startMonth : Option YM
  endMonth : Option YM
  active : Bool
deriving DecidableEq, Repr

/-- The three `continue` guards of the loop body. -/
def recurringQualifies (r : RecurringRule) (ym : YM) : Bool :=
  r.active && r.startMonth.isSome && ymInRange ym r.startMonth r.endMonth

/-- The transaction document a qualifying rule writes for month `ym`. -/
def recurringTxData (r : RecurringRule) (cutoffDay : Int) (ym : YM) : Tx :=
  let dateISO := dateFromYMDay ym r.dayOfMonth
  { date := some dateISO
    type := r.type
    group := r.group
    category := r.category
    amount := r.amount
    effectiveMonth := some (computeEffectiveMonth dateISO cutoffDay)
    isRecurring := true
    recurringId := r.id
    sourceMonth := some ym }

/-- The keyed writes `ensureRecurringForMonth(ym)` issues. -/
def recurringWrites (rules : List RecurringRule) (cutoffDay : Int) (ym : YM) :
    List (String × Tx) :=
  (rules.filter (fun r => recurringQualifies r ym)).map fun r =>
    (recurringTxDocId r.id (dateFromYMDay ym r.dayOfMonth).toISO,
     recurringTxData r cutoffDay ym)

/-- `ensureRecurringForMonth(ym)`: upsert one transaction at the
deterministic id for every active rule whose `[startMonth, endMonth]` range
covers `ym`. -/
def ensureRecurringForMonth (rules : List RecurringRule) (cutoffDay : Int) (ym : YM)
    (s : Store) : Store :=
  applyWrites s (recurringWrites rules cutoffDay ym)

/-- Concrete sample month used to instantiate universally quantified
theorems. -/
def ymMarch24 : YM := ⟨2024, 3⟩

/-- Concrete sample recurring rule (the demo-seed salary rule). -/
def ruleSalary : RecurringRule :=
  { id := "r1", type := "income", group := "Income", category := "Salary",
    amount := 5000, dayOfMonth := 25, startMonth := some ⟨2024, 1⟩,
    endMonth := none, active := true }

/-! ### Debt payment engine (src/app.js 1079–1123 / 3759–3802) -/

/-- A debt, as loaded by `loadDebts` (numeric fields coerced). -/
structure Debt where
  id : String
  name : String
  apr : Rat
  currentBalance : Rat
  monthlyPayment : Rat
  dueDay : Int
  lastPaidMonth : Option YM := none
deriving DecidableEq, Repr

/-- The state `recordDebtPaymentForMonth` touches: the transaction store and
the `debts` collection. -/
structure DebtsState where
  txs : Store
  debts : List Debt
deriving DecidableEq, Repr

/-- Outcome reported by `recordDebtPaymentForMonth`: a payment was written,
or it was already recorded (informational toast), or the debt id was
unknown. -/
inductive PayOutcome
  | recorded
  | alreadyRecorded
  | debtNotFound
deriving DecidableEq, Repr

/-- `recordDebtPaymentForMonth(debtId, ym)` (both variants identical): look
up the debt; if a transaction already exists at `debtpay_<debtId>_<ym>` the
call is a no-op reporting "already recorded"; otherwise split the monthly
payment into interest and principal, write the payment transaction at the
deterministic id and update the debt's balance and `lastPaidMonth`. -/
def recordDebtPaymentForMonth (debtId : String) (ym : YM) (cutoffDay : Int)
    (st : DebtsState) : DebtsState × PayOutcome :=
  match st.debts.find? (fun d => decide (d.id = debtId)) with
  | none => (st, .debtNotFound)
  | some debt =>
    let txId := debtPayTxDocId debtId ym.toStr
    if hasKey st.txs txId then (st, .alreadyRecorded)
    else
      let dateISO := dateFromYMDay ym debt.dueDay
      let eff := computeEffectiveMonth dateISO cutoffDay
      let monthlyRate := debt.apr / 100 / 12
      let interest := debt.currentBalance * monthlyRate
      let payment := debt.monthlyPayment
      let principal := max 0 (payment - interest)
      let newBalance := max 0 (debt.currentBalance - principal)
      let tx : Tx :=
        { date := some dateISO
          type := "expense"
          group := "Debt"
          category := debt.name
          amount := payment
          effectiveMonth := some eff
          isDebtPayment := true
          debtId := debtId
          month := some ym
          interest := round2 interest
          principal := round2 principal
          balanceAfter := round2 newBalance }
      ({ txs := upsert st.txs txId tx
         debts := st.debts.map fun d =>
           if d.id = debtId then
             { d with currentBalance := round2 newBalance, lastPaidMonth := some ym }
           else d },
       .recorded)

/-- Concrete sample debt for witness instantiations (the amortization
example of the spec). -/
def debtSample : Debt :=
  { id := "d1", name := "Car Loan", apr := 12, currentBalance := 1200,
    monthlyPayment := 110, dueDay := 5 }

/-! ### Fund contribution ledger (src/app.js 1242–1269 / 3932–3959) -/

/-- A sinking fund, as loaded by `loadFunds`. -/
structure Fund where
  id : String
  name : String
  goalAmount : Rat
  targetMonth : YM
  currentSaved : Rat
deriving DecidableEq, Repr

/-- The state `addFundContribution` touches: the transaction store and the
`funds` collection. -/
structure FundsState where
  txs : Store
  funds : List Fund
deriving DecidableEq, Repr

/-- `addFundContribution(fundId, amount, ym)`: unknown fund ids are ignored
silently; otherwise upsert a contribution transaction dated today at the
deterministic id `fund_<fundId>_<ym>_<todayISO>` and add the amount to the
fund's `currentSaved` (stored rounded to 2 decimals).  `todayISO()` is the
wall clock, passed here as the `today` parameter. -/
def addFundContribution (fundId : String) (amount : Rat) (ym : YM)
    (today : CalDate) (cutoffDay : Int) (st : FundsState) : FundsState :=
  match st.funds.find? (fun f => decide (f.id = fundId)) with
  | none => st
  | some fund =>
    let eff := computeEffectiveMonth today cutoffDay
    let txId := fundContribTxDocId fundId ym.toStr today.toISO
    let tx : Tx :=
      { date := some today
        type := "expense"
        group := "Savings"
        category := fund.name
        amount := amount
        effectiveMonth := some eff
        isFundContribution := true
        fundId := fundId
        month := some ym }
    { txs := upsert st.txs txId tx
      funds := st.funds.map fun f =>
        if f.id = fundId then
          { f with currentSaved := round2 (fund.currentSaved + amount) }
        else f }

/-- Monthly net of a list of transactions
(`computeNetTrendLast12`, src/app.js 2505–2507): income total minus
non-income total. -/
def netOfTxs (txs : List Tx) : Rat :=
  ((txs.filter (fun t => decide (t.type = "income"))).map Tx.amount).sum
    - ((txs.filter (fun t => !decide (t.type = "income"))).map Tx.amount).sum

/-- Concrete sample fund for witness instantiations. -/
def fundSample : Fund :=
  { id := "f1", name := "Car Maintenance", goalAmount := 3000,
    targetMonth := ⟨2025, 1⟩, currentSaved := 600 }

/-! ### Vehicle maintenance scheduler (src/app.js 1386–1443, 1714–1722,
1992–2002; variant 2: 4078–4120, 4342–4348) -/

/-- A vehicle, as loaded by `loadVehicles`. -/
structure Vehicle where
  id : String
  name : String
  plate : String
  currentMileage : Rat
  serviceIntervalKm : Rat
  serviceIntervalMonths : Int
deriving DecidableEq, Repr

/-- A per-(vehicle, item) maintenance configuration; `none` models the
`null` seeded by `ensureVehicleMaintenanceDefaults` in the tidy-rewrite
variant (no fake last-done values). -/
structure MaintCfg where
  itemCode : String
  intervalKm : Rat
  intervalMonths : Int
  lastDoneMileage : Option Rat
  lastDoneDate : Option CalDate
  active : Bool := true
deriving DecidableEq, Repr

/-- The derived suggestion for one (vehicle, item) pair.  The display name
resolved through `getItemByCode` is presentation-only and omitted. -/
structure Suggestion where
  vehicleId : String
  itemCode : String
  status : String
  nowMileage : Rat
  nextDueMileage : Option Rat
  nextDueDate : Option CalDate
  noHistory : Bool
deriving DecidableEq, Repr

/-- JS `Date` leap-year rule. -/
def isLeapYear (y : Int) : Bool := (y % 4 == 0 && y % 100 != 0) || (y % 400 == 0)

/-- Length of a calendar month. -/
def daysInMonth (y m : Int) : Int :=
  if m = 2 then (if isLeapYear y then 29 else 28)
  else if m = 4 ∨ m = 6 ∨ m = 9 ∨ m = 11 then 30
  else 31

/-- Day-overflow normalization performed by the JS `Date` object after
`setMonth`: a day-of-month beyond the target month's length rolls into the
following month.  For dates parsed from valid ISO strings the overflow is
at most 3 days, so a single carry suffices. -/
def fixDayOverflow (d : CalDate) : CalDate :=
  if d.day ≤ daysInMonth d.year d.month then d
  else if d.month = 12 then ⟨d.year + 1, 1, d.day - daysInMonth d.year d.month⟩
  else ⟨d.year, d.month + 1, d.day - daysInMonth d.year d.month⟩

/-- `addMonthsToISO(dateISO, months)`: `setMonth(getMonth() + months)` —
month-index arithmetic with floor normalization into the year, keeping the
day-of-month, then the JS day-overflow carry. -/
def addMonthsToISO (d : CalDate) (months : Int) : CalDate :=
  let total := (d.month - 1) + months
  fixDayOverflow ⟨d.year + total / 12, total % 12 + 1, d.day⟩

/-- The successor day of a calendar date. -/
def succDay (d : CalDate) : CalDate :=
  if d.day < daysInMonth d.year d.month then { d with day := d.day + 1 }
  else if d.month = 12 then ⟨d.year + 1, 1, 1⟩
  else ⟨d.year, d.month + 1, 1⟩

/-- `addDaysToISO(dateISO, days)` for the non-negative day counts the
scheduler uses (`setDate(getDate() + days)`). -/
def addDaysToISO (d : CalDate) : Nat → CalDate
  | 0 => d
  | n + 1 => addDaysToISO (succDay d) n

/-- Strict order on dates; the source compares ISO strings, which on
canonical renderings is this lexicographic order. -/
def CalDate.lt (a b : CalDate) : Prop :=
  a.year < b.year
    ∨ (a.year = b.year ∧ (a.month < b.month ∨ (a.month = b.month ∧ a.day < b.day)))

instance : DecidableRel CalDate.lt := fun a b => by unfold CalDate.lt; infer_instance

/-- `a <= b` on ISO date strings. -/
def CalDate.le (a b : CalDate) : Prop := CalDate.lt a b ∨ a = b

instance : DecidableRel CalDate.le := fun a b => by unfold CalDate.le; infer_instance

/-- `nextDueMileage` of `computeSuggestion`: present only when
`intervalKm > 0` and a last-done mileage exists. -/
def nextDueMileageOf (cfg : MaintCfg) : Option Rat :=
  match cfg.lastDoneMileage with
  | some lm => if 0 < cfg.intervalKm then some (lm + cfg.intervalKm) else none
  | none => none

/-- `nextDueDate` of `computeSuggestion`: present only when
`intervalMonths > 0` and a last-done date exists. -/
def nextDueDateOf (cfg : MaintCfg) : Option CalDate :=
  match cfg.lastDoneDate with
  | some ld =>
    if 0 < cfg.intervalMonths then some (addMonthsToISO ld cfg.intervalMonths) else none
  | none => none

/-- The `overdue` flag of `computeSuggestion`: current mileage has reached
`nextDueMileage`, or today has reached `nextDueDate`. -/
def suggOverdue (today : CalDate) (vehicle : Vehicle) (cfg : MaintCfg) : Bool :=
  (match nextDueMileageOf cfg with
   | some ndm => decide (ndm ≤ vehicle.currentMileage)
   | none => false)
  || (match nextDueDateOf cfg with
      | some ndd => decide (CalDate.le ndd today)
      | none => false)

/-- The `dueSoon` flag of `computeSuggestion`: not overdue, and within
500 km of `nextDueMileage` or 14 days of `nextDueDate`. -/
def suggDueSoon (today : CalDate) (vehicle : Vehicle) (cfg : MaintCfg) : Bool :=
  !suggOverdue today vehicle cfg
  && ((match nextDueMileageOf cfg with
       | some ndm => decide (ndm - vehicle.currentMileage ≤ 500)
       | none => false)
      || (match nextDueDateOf cfg with
          | some ndd => decide (CalDate.le ndd (addDaysToISO today 14))
          | none => false))

/-- `computeSuggestion(vehicle, cfg)` (tidy-rewrite variant, src/app.js
1386–1443): with no last-done history at all the status is `"soon"`
(first-time logging prompt); otherwise `"overdue"` when the mileage or date
due point has been reached, `"soon"` within 500 km or 14 days of it, else
`"ok"`.  `todayISO()` is the wall clock, passed as `today`. -/
def computeSuggestion (today : CalDate) (vehicle : Vehicle) (cfg : MaintCfg) :
    Suggestion :=
  if cfg.lastDoneDate = none ∧ cfg.lastDoneMileage = none then
    { vehicleId := vehicle.id, itemCode := cfg.itemCode, status := "soon",
      nowMileage := vehicle.currentMileage, nextDueMileage := none,
      nextDueDate := none, noHistory := true }
  else
    { vehicleId := vehicle.id, itemCode := cfg.itemCode,
      status :=
        if suggOverdue today vehicle cfg then "overdue"
        else if suggDueSoon today vehicle cfg then "soon" else "ok",
      nowMileage := vehicle.currentMileage,
      nextDueMileage := nextDueMileageOf cfg,
      nextDueDate := nextDueDateOf cfg, noHistory := false }

/-- The vehicle-mileage update step of the full service log
(`addServiceLogPrompt`, tidy-rewrite variant lines 1714–1722; the original
variant guards maintenance logs identically at 4342–4348): the stored
mileage is written only when the logged mileage is strictly greater. -/
def serviceLogUpdateMileage (v : Vehicle) (mileage : Rat) : Vehicle :=
  if v.currentMileage < mileage then { v with currentMileage := mileage } else v

/-- The vehicle-mileage update step of the monthly mileage logger
(`btnLogMileage` handler, lines 1992–2002): a logged mileage below the
stored value is rejected with a toast and the vehicle is left unchanged. -/
def mileageLogUpdateMileage (v : Vehicle) (mileage : Rat) : Vehicle :=
  if mileage < v.currentMileage then v else { v with currentMileage := mileage }

/-- Concrete sample vehicle for witness instantiations. -/
def vehicleSample : Vehicle :=
  { id := "v1", name := "My Car", plate := "", currentMileage := 59550,
    serviceIntervalKm := 10000, serviceIntervalMonths := 6 }

/-- Concrete sample maintenance config (engine oil at 10000 km, last done
at 50000 km, no date tracking). -/
def cfgSample : MaintCfg :=
  { itemCode := "engine_oil", intervalKm := 10000, intervalMonths := 0,
    lastDoneMileage := some 50000, lastDoneDate := none }

/-! ### Cutoff change reconciler (src/app.js 2547–2565 / 5024–5039) -/

/-- Per-document step of `recomputeAllTxEffectiveMonths`: documents without a
`date` are skipped; otherwise the effective month is recomputed from the
stored date and written back only if it differs.  The Boolean records
whether a write was issued. -/
def recomputeTx (cutoffDay : Int) (t : Tx) : Tx × Bool :=
  match t.date with
  | none => (t, false)
  | some d =>
    let eff := computeEffectiveMonth d cutoffDay
    if t.effectiveMonth = some eff then (t, false)
    else ({ t with effectiveMonth := some eff }, true)

/-- `recomputeAllTxEffectiveMonths()`: scan every transaction; returns the
updated store and the number of writes issued. -/
def recomputeAllTxEffectiveMonths (cutoffDay : Int) (s : Store) : Store × Nat :=
  (s.map (fun p => (p.1, (recomputeTx cutoffDay p.2).1)),
   s.countP (fun p => (recomputeTx cutoffDay p.2).2))

/-! ### Plan-vs-actual aggregator (src/app.js 2226–2277 / 4720–4769) -/

/-- `normalizeKey(group, category, type)`: case-insensitive trimmed
`group||category||type` key. -/
def normalizeKey (group category ty : String) : String :=
  jsToLower (jsTrim group) ++ "||" ++ jsToLower (jsTrim category) ++ "||" ++ jsToLower (jsTrim ty)

/-- A plan line item of the active month's plan document. -/
structure PlanItem where
  group : String
  category : String
  type : String
  planned : Rat
deriving DecidableEq, Repr

/-- A row of the monthly plan-vs-actual table. -/
structure Row where
  group : String
  category : String
  type : String
  planned : Rat
  actual : Rat
  diff : Rat := 0
  status : String := "On plan"
  badge : String := "ok"
deriving DecidableEq, Repr

/-- The grouping `Map`, in insertion order. -/
abbrev RowMap := List (String × Row)

/-- `if (!map.has(key)) map.set(key, init); f(map.get(key))` — update the
row at `key`, inserting `init` first when absent (JS `Map` keeps insertion
order). -/
def rowMapUpsert (m : RowMap) (k : String) (init : Row) (f : Row → Row) : RowMap :=
  if m.any (fun p => decide (p.1 = k)) then
    m.map (fun p => if p.1 = k then (k, f p.2) else p)
  else m ++ [(k, f init)]

/-- The plan-item loop of `buildMonthlyRows`: normalize the type, trim
group and category, skip items with neither, and accumulate `planned`. -/
def planStep (m : RowMap) (p : PlanItem) : RowMap :=
  let ty := if p.type = "income" then "income" else "expense"
  let g := jsTrim p.group
  let c := jsTrim p.category
  if g = "" ∧ c = "" then m
  else
    rowMapUpsert m (normalizeKey g c ty)
      { group := g, category := c, type := ty, planned := 0, actual := 0 }
      (fun r => { r with planned := r.planned + p.planned })

/-- The transaction loop of `buildMonthlyRows`: normalize the type, default
empty group/category to `"Other"`, and accumulate `actual`. -/
def txStep (m : RowMap) (t : Tx) : RowMap :=
  let ty := if t.type = "income" then "income" else "expense"
  let g := if jsTrim t.group = "" then "Other" else jsTrim t.group
  let c := if jsTrim t.category = "" then "Other" else jsTrim t.category
  rowMapUpsert m (normalizeKey g c ty)
    { group := g, category := c, type := ty, planned := 0, actual := 0 }
    (fun r => { r with actual := r.actual + t.amount })

/-- The grouping phase of `buildMonthlyRows`: plan items first, then
transactions. -/
def groupRows (plan : List PlanItem) (txs : List Tx) : RowMap :=
  txs.foldl txStep (plan.foldl planStep [])

/-- The per-row variance/status/badge policy of `buildMonthlyRows`. -/
def classifyRow (r : Row) : Row :=
  if r.type = "expense" then
    let diff := r.planned - r.actual
    if r.planned = 0 ∧ 0 < r.actual then
      { r with diff := diff, status := "Not planned", badge := "warn" }
    else if 0 ≤ diff then
      { r with diff := diff, status := "Good (within plan)", badge := "ok" }
    else
      { r with diff := diff, status := "Over budget", badge := "bad" }
  else
    let diff := r.actual - r.planned
    if r.planned = 0 ∧ 0 < r.actual then
      { r with diff := diff, status := "Extra income", badge := "ok" }
    else if 0 < diff then
      { r with diff := diff, status := "Good (above plan)", badge := "ok" }
    else if diff = 0 then
      { r with diff := diff, status := "On plan", badge := "ok" }
    else
      { r with diff := diff, status := "Below plan", badge := "warn" }

/-- The sort comparator of `buildMonthlyRows` as a `<=` relation: expense
rows first, then ascending `diff`, ties by group then category
(`localeCompare` modelled as lexicographic code-point order).  The first
level is expressed through the rank `expense = 0 / other = 1`, which agrees
with the comparator on the normalized row types `"expense"`/`"income"` and
keeps the relation total. -/
def rowLE (a b : Row) : Prop :=
  (if a.type = "expense" then 0 else 1) < (if b.type = "expense" then (0 : Nat) else 1)
  ∨ ((if a.type = "expense" then 0 else 1) = (if b.type = "expense" then (0 : Nat) else 1)
    ∧ (a.diff < b.diff
      ∨ (a.diff = b.diff
        ∧ (strLt a.group b.group = true
          ∨ (strLt a.group b.group = false ∧ strLt b.group a.group = false
            ∧ strLt b.category a.category = false)))))

instance : DecidableRel rowLE := fun a b => by unfold rowLE; infer_instance

/-- `buildMonthlyRows()` over the loaded plan items and the month's
transactions: group, classify, sort (JS `Array.prototype.sort` is a stable
sort by the comparator, modelled as insertion sort). -/
def buildMonthlyRows (plan : List PlanItem) (txs : List Tx) : List Row :=
  List.insertionSort rowLE ((groupRows plan txs).map (fun p => classifyRow p.2))

/-- Concrete sample plan item for witness instantiations. -/
def planItemSample : PlanItem :=
  { group := "Needs", category := "Rent", type := "expense", planned := 0 }

/-- The grouped row the sample plan item produces (the `planned` field is
written as the grouping fold produces it, before arithmetic
simplification). -/
def rowSample : Row :=
  { group := "Needs", category := "Rent", type := "expense",
    planned := 0 + 0, actual := 0 }

/-! ### Theorems -/

/-- C1: for every calendar date and every `cutoffDay` in `[1, 28]`,
`computeEffectiveMonth` returns `addMonthsYM (toYM d) 1` when the
day-of-month is `>= cutoffDay` and `toYM d` otherwise; with `cutoffDay = 25`
a date on the 24th keeps its calendar month and a date on the 25th moves to
the next month (December rolling into January of the next year), and with
`cutoffDay = 1` every (valid) date moves to the next calendar month. -/
theorem computeEffectiveMonth_spec :
    (∀ (d : CalDate) (cutoffDay : Int), 1 ≤ cutoffDay → cutoffDay ≤ 28 →
      computeEffectiveMonth d cutoffDay =
        if cutoffDay ≤ d.day then addMonthsYM d.toYM 1 else d.toYM)
    ∧ (∀ d : CalDate, d.Valid →
        computeEffectiveMonth d 1 = addMonthsYM d.toYM 1)
    ∧ computeEffectiveMonth ⟨2024, 3, 24⟩ 25 = ⟨2024, 3⟩
    ∧ computeEffectiveMonth ⟨2024, 3, 25⟩ 25 = ⟨2024, 4⟩
    ∧ computeEffectiveMonth ⟨2023, 12, 25⟩ 25 = ⟨2024, 1⟩ := by
  refine ⟨fun d c _ _ => rfl, fun d hv => ?_, by decide, by decide, by decide⟩
  have h1 : (1 : Int) ≤ d.day := hv.2.2.1
  simp [computeEffectiveMonth, h1]

/-- C1 witness: the universally quantified clauses of
`computeEffectiveMonth_spec` instantiated at a concrete date and cutoff. -/
theorem computeEffectiveMonth_spec_witness :
    computeEffectiveMonth ⟨2024, 1, 31⟩ 25 =
      (if (25 : Int) ≤ 31 then addMonthsYM (CalDate.toYM ⟨2024, 1, 31⟩) 1
       else CalDate.toYM ⟨2024, 1, 31⟩)
    ∧ computeEffectiveMonth ⟨2024, 1, 31⟩ 1 = addMonthsYM (CalDate.toYM ⟨2024, 1, 31⟩) 1 :=
  ⟨computeEffectiveMonth_spec.1 ⟨2024, 1, 31⟩ 25 (by decide) (by decide),
   computeEffectiveMonth_spec.2.1 ⟨2024, 1, 31⟩ (by decide)⟩

/-! ### Store lemmas -/

theorem hasKey_iff_mem (s : Store) (k : String) :
    hasKey s k = true ↔ k ∈ storeKeys s := by
  unfold hasKey storeKeys
  simp [List.any_eq_true, List.mem_map]

theorem storeKeys_upsert (s : Store) (k : String) (v : Tx) :
    storeKeys (upsert s k v) =
      if hasKey s k then storeKeys s else storeKeys s ++ [k] := by
  unfold upsert storeKeys
  split_ifs with h
  · rw [List.map_map]
    apply List.map_congr_left
    intro p _
    by_cases hp : p.1 = k
    · simp [hp, Function.comp]
    · simp [hp, Function.comp]
  · simp

theorem storeKeys_upsert_nodup (s : Store) (k : String) (v : Tx)
    (h : (storeKeys s).Nodup) : (storeKeys (upsert s k v)).Nodup := by
  rw [storeKeys_upsert]
  split_ifs with hk
  · exact h
  · have : k ∉ storeKeys s := fun hm => by
      rw [← hasKey_iff_mem] at hm; simp [hm] at hk
    simp [List.nodup_append, h, this]

theorem hasKey_upsert_mono (s : Store) (k k' : String) (v : Tx)
    (h : hasKey s k' = true) : hasKey (upsert s k v) k' = true := by
  rw [hasKey_iff_mem] at h ⊢
  rw [storeKeys_upsert]
  split_ifs
  · exact h
  · exact List.mem_append_left _ h

theorem hasKey_upsert_self (s : Store) (k : String) (v : Tx) :
    hasKey (upsert s k v) k = true := by
  rw [hasKey_iff_mem, storeKeys_upsert]
  split_ifs with h
  · rw [← hasKey_iff_mem]; exact h
  · exact List.mem_append_right _ (List.mem_singleton_self k)


theorem hasKey_cons (p : String × Tx) (t : Store) (k : String) :
    hasKey (p :: t) k = (decide (p.1 = k) || hasKey t k) := rfl

theorem find?_mapReplace (s : Store) (k : String) (v : Tx) (h : hasKey s k = true) :
    (s.map (fun p => if p.1 = k then (k, v) else p)).find? (fun p => decide (p.1 = k))
      = some (k, v) := by
  induction s with
  | nil => simp [hasKey] at h
  | cons p t ih =>
    rw [hasKey_cons] at h
    by_cases hp : p.1 = k
    · simp only [List.map_cons, if_pos hp]
      rw [List.find?_cons_of_pos _ (by simp)]
    · have ht : hasKey t k = true := by simpa [hp] using h
      simp only [List.map_cons, if_neg hp]
      rw [List.find?_cons_of_neg _ (by simp [hp]), ih ht]

theorem find?_mapReplace_ne (s : Store) (k k' : String) (v : Tx) (hne : k' ≠ k) :
    (s.map (fun p => if p.1 = k then (k, v) else p)).find? (fun p => decide (p.1 = k'))
      = s.find? (fun p => decide (p.1 = k')) := by
  induction s with
  | nil => rfl
  | cons p t ih =>
    by_cases hp : p.1 = k
    · have h1 : ¬((k, v).1 = k') := fun hk => hne (id hk.symm : k' = k)
      have h2 : ¬(p.1 = k') := fun hk => hne ((hp ▸ hk : (k : String) = k').symm)
      simp only [List.map_cons, if_pos hp]
      rw [List.find?_cons_of_neg _ (by simpa using h1),
        List.find?_cons_of_neg _ (by simpa using h2), ih]
    · simp only [List.map_cons, if_neg hp]
      by_cases hp' : p.1 = k'
      · rw [List.find?_cons_of_pos _ (by simpa using hp'),
          List.find?_cons_of_pos _ (by simpa using hp')]
      · rw [List.find?_cons_of_neg _ (by simpa using hp'),
          List.find?_cons_of_neg _ (by simpa using hp'), ih]

theorem find?_append_key (s : Store) (k : String) (v : Tx) (h : hasKey s k = false) :
    (s ++ [(k, v)]).find? (fun p => decide (p.1 = k)) = some (k, v) := by
  induction s with
  | nil => simp
  | cons p t ih =>
    rw [hasKey_cons] at h
    have hp : ¬(p.1 = k) := by
      intro hk; simp [hk] at h
    have ht : hasKey t k = false := by simpa [hp] using h
    rw [List.cons_append, List.find?_cons_of_neg _ (by simpa using hp), ih ht]

theorem find?_append_ne (s : Store) (k k' : String) (v : Tx) (hne : k' ≠ k) :
    (s ++ [(k, v)]).find? (fun p => decide (p.1 = k'))
      = s.find? (fun p => decide (p.1 = k')) := by
  induction s with
  | nil => simp [hne.symm]
  | cons p t ih =>
    by_cases hp : p.1 = k'
    · rw [List.cons_append, List.find?_cons_of_pos _ (by simpa using hp),
        List.find?_cons_of_pos _ (by simpa using hp)]
    · rw [List.cons_append, List.find?_cons_of_neg _ (by simpa using hp),
        List.find?_cons_of_neg _ (by simpa using hp), ih]

theorem lookupKey_upsert_self (s : Store) (k : String) (v : Tx) :
    lookupKey (upsert s k v) k = some v := by
  unfold upsert lookupKey
  split_ifs with h
  · rw [find?_mapReplace s k v h]; rfl
  · rw [find?_append_key s k v (by simpa using h)]; rfl

theorem lookupKey_upsert_ne (s : Store) (k k' : String) (v : Tx) (hne : k' ≠ k) :
    lookupKey (upsert s k v) k' = lookupKey s k' := by
  unfold upsert lookupKey
  split_ifs with h
  · rw [find?_mapReplace_ne s k k' v hne]
  · rw [find?_append_ne s k k' v hne]

theorem mapReplace_of_not_mem (t : Store) (k : String) (v : Tx)
    (h : k ∉ storeKeys t) :
    t.map (fun p => if p.1 = k then (k, v) else p) = t := by
  induction t with
  | nil => rfl
  | cons p t ih =>
    have hp : ¬(p.1 = k) := fun hk => h (by simp [storeKeys, hk])
    have ht : k ∉ storeKeys t := fun hm => h (by
      simp only [storeKeys, List.map_cons, List.mem_cons]
      exact Or.inr hm)
    rw [List.map_cons, if_neg hp, ih ht]

theorem hasKey_of_lookup (s : Store) (k : String) (v : Tx)
    (hl : lookupKey s k = some v) : hasKey s k = true := by
  unfold lookupKey at hl
  rcases Option.map_eq_some'.mp hl with ⟨p, hp, _⟩
  have hpk := List.find?_some hp
  unfold hasKey
  rw [List.any_eq_true]
  exact ⟨p, List.mem_of_find?_eq_some hp, hpk⟩

theorem upsert_of_lookup (s : Store) (k : String) (v : Tx)
    (hnd : (storeKeys s).Nodup) (hl : lookupKey s k = some v) :
    upsert s k v = s := by
  unfold upsert
  rw [if_pos (hasKey_of_lookup s k v hl)]
  induction s with
  | nil => rfl
  | cons p t ih =>
    have hndc : ¬(p.1 ∈ storeKeys t) ∧ (storeKeys t).Nodup := by
      have : storeKeys (p :: t) = p.1 :: storeKeys t := rfl
      rw [this, List.nodup_cons] at hnd
      exact hnd
    by_cases hp : p.1 = k
    · have hfound : lookupKey (p :: t) k = some p.2 := by
        unfold lookupKey
        rw [List.find?_cons_of_pos _ (by simpa using hp)]
        rfl
      have hpv : p = (k, v) := by
        have h2 : p.2 = v := by
          have := hfound.symm.trans hl
          injection this
        cases p with
        | mk a b => simp only at hp h2; rw [hp, h2]
      have ht : k ∉ storeKeys t := by
        rw [← hp]; exact hndc.1
      rw [List.map_cons, if_pos hp, mapReplace_of_not_mem t k v ht, ← hpv]
    · have hl' : lookupKey t k = some v := by
        unfold lookupKey at hl ⊢
        rwa [List.find?_cons_of_neg _ (by simpa using hp)] at hl
      rw [List.map_cons, if_neg hp, ih hndc.2 hl']

theorem storeKeys_applyWrites (s : Store) (ws : List (String × Tx)) (k : String) :
    k ∈ storeKeys (applyWrites s ws) ↔ k ∈ storeKeys s ∨ k ∈ ws.map Prod.fst := by
  induction ws generalizing s with
  | nil => simp [applyWrites]
  | cons w t ih =>
    show k ∈ storeKeys (applyWrites (upsert s w.1 w.2) t) ↔ _
    rw [ih]
    constructor
    · rintro (hk | hk)
      · rw [storeKeys_upsert] at hk
        split_ifs at hk with h
        · exact Or.inl hk
        · rcases List.mem_append.mp hk with h1 | h1
          · exact Or.inl h1
          · simp at h1
            exact Or.inr (by simp [h1])
      · exact Or.inr (by simp [hk])
    · rintro (hk | hk)
      · left
        rw [storeKeys_upsert]
        split_ifs with h
        · exact hk
        · exact List.mem_append_left _ hk
      · rw [List.map_cons] at hk
        rcases List.mem_cons.mp hk with h1 | h1
        · left
          rw [storeKeys_upsert]
          split_ifs with h
          · rw [← hasKey_iff_mem]; rw [h1]; exact h
          · rw [h1]; exact List.mem_append_right _ (List.mem_singleton_self _)
        · right
          exact h1

theorem storeKeys_applyWrites_nodup (s : Store) (ws : List (String × Tx))
    (h : (storeKeys s).Nodup) : (storeKeys (applyWrites s ws)).Nodup := by
  induction ws generalizing s with
  | nil => exact h
  | cons w t ih =>
    exact ih (upsert s w.1 w.2) (storeKeys_upsert_nodup s w.1 w.2 h)

theorem lookupKey_applyWrites_of_not_mem (s : Store) (ws : List (String × Tx))
    (k : String) (h : k ∉ ws.map Prod.fst) :
    lookupKey (applyWrites s ws) k = lookupKey s k := by
  induction ws generalizing s with
  | nil => rfl
  | cons w t ih =>
    have h1 : ¬(k = w.1) := fun hk => h (by simp [hk])
    have h2 : k ∉ t.map Prod.fst := fun hk => h (by simp [hk])
    show lookupKey (applyWrites (upsert s w.1 w.2) t) k = _
    rw [ih (upsert s w.1 w.2) h2, lookupKey_upsert_ne s w.1 k w.2 h1]

theorem applyWrites_idem (ws : List (String × Tx)) (s : Store)
    (hs : (storeKeys s).Nodup) (hw : (ws.map Prod.fst).Nodup) :
    applyWrites (applyWrites s ws) ws = applyWrites s ws := by
  induction ws generalizing s with
  | nil => rfl
  | cons w t ih =>
    have hw1 : w.1 ∉ t.map Prod.fst := (List.nodup_cons.mp (by simpa using hw)).1
    have hwt : (t.map Prod.fst).Nodup := (List.nodup_cons.mp (by simpa using hw)).2
    show applyWrites (upsert (applyWrites (upsert s w.1 w.2) t) w.1 w.2) t
      = applyWrites (upsert s w.1 w.2) t
    have hlook : lookupKey (applyWrites (upsert s w.1 w.2) t) w.1 = some w.2 := by
      rw [lookupKey_applyWrites_of_not_mem _ t w.1 hw1]
      exact lookupKey_upsert_self s w.1 w.2
    have hnd1 : (storeKeys (applyWrites (upsert s w.1 w.2) t)).Nodup :=
      storeKeys_applyWrites_nodup _ t (storeKeys_upsert_nodup s w.1 w.2 hs)
    rw [upsert_of_lookup _ w.1 w.2 hnd1 hlook]
    exact ih (upsert s w.1 w.2) (storeKeys_upsert_nodup s w.1 w.2 hs) hwt

theorem countKey_eq_one (s : Store) (k : String)
    (hnd : (storeKeys s).Nodup) (hk : k ∈ storeKeys s) : countKey s k = 1 := by
  induction s with
  | nil => simp [storeKeys] at hk
  | cons p t ih =>
    have hndc : ¬(p.1 ∈ storeKeys t) ∧ (storeKeys t).Nodup := by
      have : storeKeys (p :: t) = p.1 :: storeKeys t := rfl
      rw [this, List.nodup_cons] at hnd
      exact hnd
    by_cases hp : p.1 = k
    · have hz : countKey t k = 0 := by
        unfold countKey
        rw [List.countP_eq_zero]
        intro q hq
        simp only [decide_eq_true_eq]
        intro hqk
        exact hndc.1 (hp ▸ hqk ▸ (by simp [storeKeys]; exact ⟨q.2, by simpa using hq⟩))
      unfold countKey at hz ⊢
      rw [List.countP_cons, hz]
      simp [hp]
    · have hkt : k ∈ storeKeys t := by
        rcases List.mem_cons.mp (show k ∈ p.1 :: storeKeys t from hk) with h1 | h1
        · exact absurd h1.symm hp
        · exact h1
      unfold countKey at ih ⊢
      rw [List.countP_cons, ih hndc.2 hkt]
      simp [hp]

/-- C2: `ensureRecurringForMonth` is idempotent: with unchanged rules and
cutoff, a second run leaves the transaction store exactly as one run left
it, and the store holds exactly one transaction — at the deterministic id
`rec_<ruleId>_<date>` — per active rule whose `[startMonth, endMonth]` range
covers the month; never two. -/
theorem ensureRecurringForMonth_idempotent (rules : List RecurringRule)
    (cutoffDay : Int) (ym : YM) (s : Store)
    (hs : (storeKeys s).Nodup)
    (hw : ((recurringWrites rules cutoffDay ym).map Prod.fst).Nodup) :
    ensureRecurringForMonth rules cutoffDay ym
        (ensureRecurringForMonth rules cutoffDay ym s)
      = ensureRecurringForMonth rules cutoffDay ym s
    ∧ ∀ r ∈ rules, recurringQualifies r ym = true →
        countKey (ensureRecurringForMonth rules cutoffDay ym s)
          (recurringTxDocId r.id (dateFromYMDay ym r.dayOfMonth).toISO) = 1 := by
  constructor
  · exact applyWrites_idem (recurringWrites rules cutoffDay ym) s hs hw
  · intro r hr hq
    have hkmem : recurringTxDocId r.id (dateFromYMDay ym r.dayOfMonth).toISO
        ∈ (recurringWrites rules cutoffDay ym).map Prod.fst := by
      unfold recurringWrites
      rw [List.map_map]
      exact List.mem_map.mpr ⟨r, List.mem_filter.mpr ⟨hr, hq⟩, rfl⟩
    have hmem : recurringTxDocId r.id (dateFromYMDay ym r.dayOfMonth).toISO
        ∈ storeKeys (ensureRecurringForMonth rules cutoffDay ym s) :=
      (storeKeys_applyWrites s _ _).mpr (Or.inr hkmem)
    exact countKey_eq_one _ _ (storeKeys_applyWrites_nodup s _ hs) hmem

/-- C2 witness: `ensureRecurringForMonth_idempotent` at the sample rule, the
standard cutoff 25, month 2024-03 and the empty store. -/
theorem ensureRecurringForMonth_idempotent_witness :
    ensureRecurringForMonth [ruleSalary] 25 ymMarch24
        (ensureRecurringForMonth [ruleSalary] 25 ymMarch24 [])
      = ensureRecurringForMonth [ruleSalary] 25 ymMarch24 []
    ∧ ∀ r ∈ [ruleSalary], recurringQualifies r ymMarch24 = true →
        countKey (ensureRecurringForMonth [ruleSalary] 25 ymMarch24 [])
          (recurringTxDocId r.id (dateFromYMDay ymMarch24 r.dayOfMonth).toISO) = 1 :=
  ensureRecurringForMonth_idempotent [ruleSalary] 25 ymMarch24 []
    (by decide) (by decide)

/-- C9: the cutoff-change reconciler writes back exactly the transactions
whose effective month, recomputed from the stored date with the current
cutoff, differs from the stored value (documents without a date, or with a
matching value, are left untouched), and running it twice in a row with an
unchanged cutoff performs zero writes the second time. -/
theorem recomputeAllTxEffectiveMonths_spec :
    (∀ (cutoffDay : Int) (t : Tx),
      ((recomputeTx cutoffDay t).2 = true ↔
        ∃ d, t.date = some d
          ∧ t.effectiveMonth ≠ some (computeEffectiveMonth d cutoffDay)))
    ∧ (∀ (cutoffDay : Int) (t : Tx),
        (recomputeTx cutoffDay t).2 = false → (recomputeTx cutoffDay t).1 = t)
    ∧ (∀ (cutoffDay : Int) (s : Store),
        (recomputeAllTxEffectiveMonths cutoffDay
          (recomputeAllTxEffectiveMonths cutoffDay s).1).2 = 0) := by
  refine ⟨fun cutoffDay t => ?_, fun cutoffDay t h => ?_, fun cutoffDay s => ?_⟩
  · unfold recomputeTx
    cases ht : t.date with
    | none => simp
    | some d =>
      by_cases he : t.effectiveMonth = some (computeEffectiveMonth d cutoffDay)
      · simp [he]
      · simp [he]
  · unfold recomputeTx at h ⊢
    cases ht : t.date with
    | none => rfl
    | some d =>
      rw [ht] at h
      by_cases he : t.effectiveMonth = some (computeEffectiveMonth d cutoffDay)
      · simp [he]
      · simp [he] at h
  · have stable : ∀ t : Tx, (recomputeTx cutoffDay ((recomputeTx cutoffDay t).1)).2 = false := by
      intro t
      cases ht : t.date with
      | none => simp [recomputeTx, ht]
      | some d =>
        by_cases he : t.effectiveMonth = some (computeEffectiveMonth d cutoffDay)
        · simp [recomputeTx, ht, he]
        · simp [recomputeTx, ht, he]
    unfold recomputeAllTxEffectiveMonths
    simp only
    rw [List.countP_eq_zero]
    intro p hp
    rcases List.mem_map.mp hp with ⟨q, _, hq⟩
    rw [← hq]
    simp [stable q.2]

/-- C9 witness: the per-document clauses of
`recomputeAllTxEffectiveMonths_spec` at a concrete transaction whose stored
effective month already matches the recomputed one. -/
theorem recomputeAllTxEffectiveMonths_spec_witness :
    (recomputeTx 25 { date := some ⟨2024, 3, 10⟩, effectiveMonth := some ⟨2024, 3⟩ }).2 = false
      → (recomputeTx 25 { date := some ⟨2024, 3, 10⟩, effectiveMonth := some ⟨2024, 3⟩ }).1
        = { date := some ⟨2024, 3, 10⟩, effectiveMonth := some ⟨2024, 3⟩ } :=
  recomputeAllTxEffectiveMonths_spec.2.1 25
    { date := some ⟨2024, 3, 10⟩, effectiveMonth := some ⟨2024, 3⟩ }

theorem find?_map_ite {α : Type _} (l : List α) (q : α → Prop) [DecidablePred q]
    (g : α → α) (hg : ∀ x, q (g x) ↔ q x) :
    (l.map (fun x => if q x then g x else x)).find? (fun x => decide (q x))
      = (l.find? (fun x => decide (q x))).map g := by
  induction l with
  | nil => rfl
  | cons d t ih =>
    by_cases hd : q d
    · rw [List.map_cons, if_pos hd,
        List.find?_cons_of_pos _ (by simpa using (hg d).mpr hd),
        List.find?_cons_of_pos _ (by simpa using hd)]
      rfl
    · rw [List.map_cons, if_neg hd,
        List.find?_cons_of_neg _ (by simpa using hd),
        List.find?_cons_of_neg _ (by simpa using hd), ih]

theorem round2_of_isCents (x : Rat) (h : isCents x) : round2 x = x := by
  rcases h with ⟨n, rfl⟩
  unfold round2
  have h100 : ((n : Rat) / 100) * 100 = (n : Rat) := by
    field_simp
  rw [h100]
  have : ⌊(n : Rat) + 1 / 2⌋ = n := by
    rw [add_comm, Int.floor_add_int]
    norm_num
  rw [this]

theorem isCents_add (x y : Rat) (hx : isCents x) (hy : isCents y) : isCents (x + y) := by
  rcases hx with ⟨n, rfl⟩
  rcases hy with ⟨m, rfl⟩
  exact ⟨n + m, by push_cast; ring⟩

theorem recordDebtPayment_noop (debtId : String) (ym : YM) (cutoffDay : Int)
    (st : DebtsState) (hk : hasKey st.txs (debtPayTxDocId debtId ym.toStr) = true) :
    (recordDebtPaymentForMonth debtId ym cutoffDay st).1 = st := by
  unfold recordDebtPaymentForMonth
  cases hfind : st.debts.find? (fun d => decide (d.id = debtId)) with
  | none => rfl
  | some debt => simp [hk]

theorem recordDebtPayment_after (debtId : String) (ym : YM) (cutoffDay : Int)
    (st : DebtsState) :
    hasKey (recordDebtPaymentForMonth debtId ym cutoffDay st).1.txs
        (debtPayTxDocId debtId ym.toStr) = true
      ∨ (recordDebtPaymentForMonth debtId ym cutoffDay st).1 = st := by
  unfold recordDebtPaymentForMonth
  split
  · exact Or.inr rfl
  · dsimp only
    split
    · exact Or.inr rfl
    · exact Or.inl (hasKey_upsert_self _ _ _)

/-- C3: `recordDebtPayment` is at-most-once per debt and month: if a
transaction already exists at `debtpay_<debtId>_<ym>` the call is an
informational no-op that writes nothing (the store, the debt's
`currentBalance` and `lastPaidMonth` are unchanged, and the reported
outcome is "already recorded" whenever the debt exists), and calling it
twice in succession leaves exactly the state of the first call — the
balance changes at most once. -/
theorem recordDebtPayment_at_most_once (debtId : String) (ym : YM)
    (cutoffDay : Int) (st : DebtsState) :
    (hasKey st.txs (debtPayTxDocId debtId ym.toStr) = true →
      recordDebtPaymentForMonth debtId ym cutoffDay st
        = (st, if (st.debts.find? (fun d => decide (d.id = debtId))).isSome
               then .alreadyRecorded else .debtNotFound))
    ∧ (recordDebtPaymentForMonth debtId ym cutoffDay
        (recordDebtPaymentForMonth debtId ym cutoffDay st).1).1
      = (recordDebtPaymentForMonth debtId ym cutoffDay st).1 := by
  constructor
  · intro hk
    unfold recordDebtPaymentForMonth
    cases hfind : st.debts.find? (fun d => decide (d.id = debtId)) with
    | none => simp
    | some debt => simp [hk]
  · rcases recordDebtPayment_after debtId ym cutoffDay st with h | h
    · exact recordDebtPayment_noop debtId ym cutoffDay _ h
    · rw [h]
      exact h

/-- C3 witness: a second `recordDebtPayment` call for the same debt and
month is a no-op: instantiation at the sample debt with the payment already
recorded. -/
theorem recordDebtPayment_at_most_once_witness :
    recordDebtPaymentForMonth "d1" ymMarch24 25
      ⟨[(debtPayTxDocId "d1" ymMarch24.toStr, { type := "expense" })], [debtSample]⟩
      = (⟨[(debtPayTxDocId "d1" ymMarch24.toStr, { type := "expense" })], [debtSample]⟩,
         if (([debtSample] : List Debt).find? (fun d => decide (d.id = "d1"))).isSome
         then .alreadyRecorded else .debtNotFound) :=
  (recordDebtPayment_at_most_once "d1" ymMarch24 25
    ⟨[(debtPayTxDocId "d1" ymMarch24.toStr, { type := "expense" })], [debtSample]⟩).1
    (by decide)

theorem recordDebtPayment_eq (debtId : String) (ym : YM) (cutoffDay : Int)
    (st : DebtsState) (debt : Debt)
    (hfind : st.debts.find? (fun d => decide (d.id = debtId)) = some debt)
    (hk : hasKey st.txs (debtPayTxDocId debtId ym.toStr) = false) :
    recordDebtPaymentForMonth debtId ym cutoffDay st
      = ({ txs := upsert st.txs (debtPayTxDocId debtId ym.toStr)
             { date := some (dateFromYMDay ym debt.dueDay)
               type := "expense"
               group := "Debt"
               category := debt.name
               amount := debt.monthlyPayment
               effectiveMonth := some (computeEffectiveMonth (dateFromYMDay ym debt.dueDay) cutoffDay)
               isDebtPayment := true
               debtId := debtId
               month := some ym
               interest := round2 (debt.currentBalance * (debt.apr / 100 / 12))
               principal := round2 (max 0 (debt.monthlyPayment
                 - debt.currentBalance * (debt.apr / 100 / 12)))
               balanceAfter := round2 (max 0 (debt.currentBalance
                 - max 0 (debt.monthlyPayment - debt.currentBalance * (debt.apr / 100 / 12)))) }
           debts := st.debts.map fun d =>
             if d.id = debtId then
               { d with
                 currentBalance := round2 (max 0 (debt.currentBalance
                   - max 0 (debt.monthlyPayment - debt.currentBalance * (debt.apr / 100 / 12))))
                 lastPaidMonth := some ym }
             else d },
         .recorded) := by
  unfold recordDebtPaymentForMonth
  rw [hfind]
  simp only [hk, Bool.false_eq_true, if_false]

/-- C4: for a debt with no payment recorded for the month,
`recordDebtPayment` computes `interest = currentBalance * apr/100/12`,
`principal = max 0 (monthlyPayment - interest)`,
`newBalance = max 0 (currentBalance - principal)`; it stores interest,
principal and the new balance rounded to 2 decimals, the transaction amount
is the full monthly payment, and the debt's balance is updated to the
rounded new balance.  When `monthlyPayment ≤ interest` the principal is 0
and the (2-decimal, non-negative) balance does not decrease, and the call
still reports success rather than an error.  At `apr = 12`,
`currentBalance = 1200`, `monthlyPayment = 110` this yields interest 12.00,
principal 98.00 and new balance 1102.00. -/
theorem recordDebtPayment_amortization (debtId : String) (ym : YM)
    (cutoffDay : Int) (st : DebtsState) (debt : Debt)
    (hfind : st.debts.find? (fun d => decide (d.id = debtId)) = some debt)
    (hk : hasKey st.txs (debtPayTxDocId debtId ym.toStr) = false) :
    (recordDebtPaymentForMonth debtId ym cutoffDay st).2 = .recorded
    ∧ lookupKey (recordDebtPaymentForMonth debtId ym cutoffDay st).1.txs
        (debtPayTxDocId debtId ym.toStr)
      = some
        { date := some (dateFromYMDay ym debt.dueDay)
          type := "expense"
          group := "Debt"
          category := debt.name
          amount := debt.monthlyPayment
          effectiveMonth := some (computeEffectiveMonth (dateFromYMDay ym debt.dueDay) cutoffDay)
          isDebtPayment := true
          debtId := debtId
          month := some ym
          interest := round2 (debt.currentBalance * (debt.apr / 100 / 12))
          principal := round2 (max 0 (debt.monthlyPayment
            - debt.currentBalance * (debt.apr / 100 / 12)))
          balanceAfter := round2 (max 0 (debt.currentBalance
            - max 0 (debt.monthlyPayment - debt.currentBalance * (debt.apr / 100 / 12)))) }
    ∧ (recordDebtPaymentForMonth debtId ym cutoffDay st).1.debts.find?
        (fun d => decide (d.id = debtId))
      = some
        { debt with
          currentBalance := round2 (max 0 (debt.currentBalance
            - max 0 (debt.monthlyPayment - debt.currentBalance * (debt.apr / 100 / 12))))
          lastPaidMonth := some ym }
    ∧ (debt.monthlyPayment ≤ debt.currentBalance * (debt.apr / 100 / 12) →
        max 0 (debt.monthlyPayment - debt.currentBalance * (debt.apr / 100 / 12)) = 0
        ∧ (isCents debt.currentBalance → 0 ≤ debt.currentBalance →
            round2 (max 0 (debt.currentBalance
              - max 0 (debt.monthlyPayment - debt.currentBalance * (debt.apr / 100 / 12))))
              = debt.currentBalance))
    ∧ (lookupKey (recordDebtPaymentForMonth "d1" ymMarch24 25 ⟨[], [debtSample]⟩).1.txs
        (debtPayTxDocId "d1" ymMarch24.toStr)).map
          (fun t => (t.interest, t.principal, t.balanceAfter, t.amount))
      = some (12, 98, 1102, 110) := by
  have hred := recordDebtPayment_eq debtId ym cutoffDay st debt hfind hk
  have hconc := recordDebtPayment_eq "d1" ymMarch24 25 ⟨[], [debtSample]⟩ debtSample
    (by rfl) (by rfl)
  refine ⟨by rw [hred], ?_, ?_, fun hle => ⟨?_, fun hc hnn => ?_⟩, ?_⟩
  · rw [hred]
    exact lookupKey_upsert_self _ _ _
  · rw [hred]
    rw [find?_map_ite st.debts (fun d => d.id = debtId)
      (fun d => { d with
        currentBalance := round2 (max 0 (debt.currentBalance
          - max 0 (debt.monthlyPayment - debt.currentBalance * (debt.apr / 100 / 12))))
        lastPaidMonth := some ym }) (fun x => Iff.rfl), hfind]
    rfl
  · exact max_eq_left (by linarith)
  · have h0 : max 0 (debt.monthlyPayment - debt.currentBalance * (debt.apr / 100 / 12)) = 0 :=
      max_eq_left (by linarith)
    rw [h0, sub_zero, max_eq_right hnn]
    exact round2_of_isCents _ hc
  · rw [hconc, lookupKey_upsert_self]
    have h1 : round2 ((1200 : Rat) * (12 / 100 / 12)) = 12 := by
      norm_num [round2]
    have h2 : round2 (max (0 : Rat) (110 - 1200 * (12 / 100 / 12))) = 98 := by
      norm_num [round2]
    have h3 : round2 (max (0 : Rat) (1200 - max 0 (110 - 1200 * (12 / 100 / 12)))) = 1102 := by
      norm_num [round2]
    simp [debtSample, h1, h2, h3]

/-- C4 witness: `recordDebtPayment_amortization` at the sample debt and an
empty transaction store. -/
theorem recordDebtPayment_amortization_witness :
    (recordDebtPaymentForMonth "d1" ymMarch24 25 ⟨[], [debtSample]⟩).2 = .recorded :=
  (recordDebtPayment_amortization "d1" ymMarch24 25 ⟨[], [debtSample]⟩ debtSample
    (by rfl) (by rfl)).1

theorem addFundContribution_eq (fundId : String) (amount : Rat) (ym : YM)
    (today : CalDate) (cutoffDay : Int) (st : FundsState) (fund : Fund)
    (hfind : st.funds.find? (fun f => decide (f.id = fundId)) = some fund) :
    addFundContribution fundId amount ym today cutoffDay st
      = { txs := upsert st.txs (fundContribTxDocId fundId ym.toStr today.toISO)
            { date := some today
              type := "expense"
              group := "Savings"
              category := fund.name
              amount := amount
              effectiveMonth := some (computeEffectiveMonth today cutoffDay)
              isFundContribution := true
              fundId := fundId
              month := some ym }
          funds := st.funds.map fun f =>
            if f.id = fundId then
              { f with currentSaved := round2 (fund.currentSaved + amount) }
            else f } := by
  unfold addFundContribution
  rw [hfind]

/-- C6: two same-day `addFundContribution` calls collapse to a single
transaction document — the second call overwrites the document at the
deterministic id keyed by fund, month and today's date, leaving its amount
at the second call's amount — while the fund's `currentSaved` accumulator
increases by each call's amount, ending (for 2-decimal inputs) at the
original value plus the sum of both amounts, rounded to 2 decimals. -/
theorem addFundContribution_same_day (fundId : String) (a1 a2 : Rat) (ym : YM)
    (today : CalDate) (cutoffDay : Int) (st : FundsState) (fund : Fund)
    (hfind : st.funds.find? (fun f => decide (f.id = fundId)) = some fund)
    (hnd : (storeKeys st.txs).Nodup)
    (hc0 : isCents fund.currentSaved) (hc1 : isCents a1) :
    countKey (addFundContribution fundId a2 ym today cutoffDay
        (addFundContribution fundId a1 ym today cutoffDay st)).txs
        (fundContribTxDocId fundId ym.toStr today.toISO) = 1
    ∧ (lookupKey (addFundContribution fundId a2 ym today cutoffDay
        (addFundContribution fundId a1 ym today cutoffDay st)).txs
        (fundContribTxDocId fundId ym.toStr today.toISO)).map Tx.amount = some a2
    ∧ (addFundContribution fundId a2 ym today cutoffDay
        (addFundContribution fundId a1 ym today cutoffDay st)).funds.find?
          (fun f => decide (f.id = fundId))
      = some { fund with currentSaved := round2 (fund.currentSaved + a1 + a2) } := by
  have h1 := addFundContribution_eq fundId a1 ym today cutoffDay st fund hfind
  have hfind1 : (addFundContribution fundId a1 ym today cutoffDay st).funds.find?
      (fun f => decide (f.id = fundId))
      = some { fund with currentSaved := round2 (fund.currentSaved + a1) } := by
    rw [h1]
    simp only
    rw [find?_map_ite st.funds (fun f => f.id = fundId)
      (fun f => { f with currentSaved := round2 (fund.currentSaved + a1) })
      (fun x => Iff.rfl), hfind]
    rfl
  have h2 := addFundContribution_eq fundId a2 ym today cutoffDay
    (addFundContribution fundId a1 ym today cutoffDay st)
    { fund with currentSaved := round2 (fund.currentSaved + a1) } hfind1
  refine ⟨?_, ?_, ?_⟩
  · rw [h2]
    simp only
    have hnd1 : (storeKeys (addFundContribution fundId a1 ym today cutoffDay st).txs).Nodup := by
      rw [h1]
      exact storeKeys_upsert_nodup _ _ _ hnd
    apply countKey_eq_one _ _ (storeKeys_upsert_nodup _ _ _ hnd1)
    rw [← hasKey_iff_mem]
    exact hasKey_upsert_self _ _ _
  · rw [h2]
    simp only
    rw [lookupKey_upsert_self]
    rfl
  · rw [h2]
    simp only
    rw [find?_map_ite (addFundContribution fundId a1 ym today cutoffDay st).funds
      (fun f => f.id = fundId)
      (fun f : Fund => { f with currentSaved := round2 (round2 (fund.currentSaved + a1) + a2) })
      (fun x => Iff.rfl), hfind1]
    rw [round2_of_isCents _ (isCents_add _ _ hc0 hc1)]
    rfl

/-- C6 witness: `addFundContribution_same_day` at the sample fund, amounts
100 and 50.25, month 2024-03, a concrete today and the empty store. -/
theorem addFundContribution_same_day_witness :
    countKey (addFundContribution "f1" (5025/100) ymMarch24 ⟨2024, 3, 10⟩ 25
        (addFundContribution "f1" 100 ymMarch24 ⟨2024, 3, 10⟩ 25 ⟨[], [fundSample]⟩)).txs
        (fundContribTxDocId "f1" ymMarch24.toStr (CalDate.toISO ⟨2024, 3, 10⟩)) = 1
    ∧ (lookupKey (addFundContribution "f1" (5025/100) ymMarch24 ⟨2024, 3, 10⟩ 25
        (addFundContribution "f1" 100 ymMarch24 ⟨2024, 3, 10⟩ 25 ⟨[], [fundSample]⟩)).txs
        (fundContribTxDocId "f1" ymMarch24.toStr (CalDate.toISO ⟨2024, 3, 10⟩))).map Tx.amount
      = some (5025/100)
    ∧ (addFundContribution "f1" (5025/100) ymMarch24 ⟨2024, 3, 10⟩ 25
        (addFundContribution "f1" 100 ymMarch24 ⟨2024, 3, 10⟩ 25 ⟨[], [fundSample]⟩)).funds.find?
          (fun f => decide (f.id = "f1"))
      = some { fundSample with currentSaved := round2 (fundSample.currentSaved + 100 + 5025/100) } :=
  addFundContribution_same_day "f1" 100 (5025/100) ymMarch24 ⟨2024, 3, 10⟩ 25
    ⟨[], [fundSample]⟩ fundSample rfl (by decide)
    ⟨60000, by norm_num [fundSample]⟩ ⟨10000, by norm_num⟩

/-- C10: a fund contribution for a known fund writes a transaction with
type `"expense"`, group `"Savings"`, category the fund's name, dated today —
so by the monthly aggregation rule (net = income minus non-income) it
counts as spending and lowers the month's actual net by its amount — and a
call with an unknown fund id writes nothing at all. -/
theorem addFundContribution_expense_fields (fundId : String) (amount : Rat)
    (ym : YM) (today : CalDate) (cutoffDay : Int) (st : FundsState) :
    (∀ fund, st.funds.find? (fun f => decide (f.id = fundId)) = some fund →
      lookupKey (addFundContribution fundId amount ym today cutoffDay st).txs
          (fundContribTxDocId fundId ym.toStr today.toISO)
        = some
          { date := some today
            type := "expense"
            group := "Savings"
            category := fund.name
            amount := amount
            effectiveMonth := some (computeEffectiveMonth today cutoffDay)
            isFundContribution := true
            fundId := fundId
            month := some ym })
    ∧ (st.funds.find? (fun f => decide (f.id = fundId)) = none →
        addFundContribution fundId amount ym today cutoffDay st = st)
    ∧ (∀ (txs : List Tx) (t : Tx), t.type = "expense" →
        netOfTxs (txs ++ [t]) = netOfTxs txs - t.amount) := by
  refine ⟨fun fund hfind => ?_, fun hnone => ?_, fun txs t ht => ?_⟩
  · rw [addFundContribution_eq fundId amount ym today cutoffDay st fund hfind]
    exact lookupKey_upsert_self _ _ _
  · unfold addFundContribution
    rw [hnone]
  · have hne : ¬(t.type = "income") := by
      rw [ht]
      intro hcontra
      exact absurd hcontra (by decide)
    unfold netOfTxs
    rw [List.filter_append, List.filter_append]
    simp [hne]
    ring

/-- C10 witness: `addFundContribution_expense_fields` instantiated at the
sample fund (known-id clause) and at a one-element transaction list. -/
theorem addFundContribution_expense_fields_witness :
    lookupKey (addFundContribution "f1" 100 ymMarch24 ⟨2024, 3, 10⟩ 25
        ⟨[], [fundSample]⟩).txs
        (fundContribTxDocId "f1" ymMarch24.toStr (CalDate.toISO ⟨2024, 3, 10⟩))
      = some
        { date := some ⟨2024, 3, 10⟩
          type := "expense"
          group := "Savings"
          category := fundSample.name
          amount := 100
          effectiveMonth := some (computeEffectiveMonth ⟨2024, 3, 10⟩ 25)
          isFundContribution := true
          fundId := "f1"
          month := some ymMarch24 }
    ∧ netOfTxs ([{ type := "income", amount := 7 }] ++ [{ type := "expense", amount := 2 }])
      = netOfTxs [{ type := "income", amount := 7 }] - Tx.amount { type := "expense", amount := 2 } :=
  ⟨(addFundContribution_expense_fields "f1" 100 ymMarch24 ⟨2024, 3, 10⟩ 25
      ⟨[], [fundSample]⟩).1 fundSample rfl,
   (addFundContribution_expense_fields "f1" 100 ymMarch24 ⟨2024, 3, 10⟩ 25
      ⟨[], [fundSample]⟩).2.2 [{ type := "income", amount := 7 }]
      { type := "expense", amount := 2 } rfl⟩

theorem suggOverdue_iff (today : CalDate) (v : Vehicle) (cfg : MaintCfg) :
    suggOverdue today v cfg = true ↔
      (∃ lm, cfg.lastDoneMileage = some lm ∧ 0 < cfg.intervalKm
        ∧ lm + cfg.intervalKm ≤ v.currentMileage)
      ∨ (∃ ld, cfg.lastDoneDate = some ld ∧ 0 < cfg.intervalMonths
        ∧ CalDate.le (addMonthsToISO ld cfg.intervalMonths) today) := by
  unfold suggOverdue nextDueMileageOf nextDueDateOf
  rw [Bool.or_eq_true]
  constructor
  · rintro (h | h)
    · left
      cases hm : cfg.lastDoneMileage with
      | none => rw [hm] at h; simp at h
      | some lm =>
        rw [hm] at h
        by_cases hik : 0 < cfg.intervalKm
        · refine ⟨lm, rfl, hik, ?_⟩
          simpa [hik] using h
        · simp [hik] at h
    · right
      cases hd : cfg.lastDoneDate with
      | none => rw [hd] at h; simp at h
      | some ld =>
        rw [hd] at h
        by_cases him : 0 < cfg.intervalMonths
        · refine ⟨ld, rfl, him, ?_⟩
          simpa [him] using h
        · simp [him] at h
  · rintro (⟨lm, hm, hik, hle⟩ | ⟨ld, hd, him, hle⟩)
    · left
      rw [hm]
      simp [hik, hle]
    · right
      rw [hd]
      simp [him, hle]

theorem suggDueSoon_iff (today : CalDate) (v : Vehicle) (cfg : MaintCfg) :
    suggDueSoon today v cfg = true ↔
      suggOverdue today v cfg = false
      ∧ ((∃ lm, cfg.lastDoneMileage = some lm ∧ 0 < cfg.intervalKm
          ∧ (lm + cfg.intervalKm) - v.currentMileage ≤ 500)
        ∨ (∃ ld, cfg.lastDoneDate = some ld ∧ 0 < cfg.intervalMonths
          ∧ CalDate.le (addMonthsToISO ld cfg.intervalMonths) (addDaysToISO today 14))) := by
  unfold suggDueSoon
  rw [Bool.and_eq_true, Bool.not_eq_true', Bool.or_eq_true]
  apply and_congr Iff.rfl
  unfold nextDueMileageOf nextDueDateOf
  constructor
  · rintro (h | h)
    · left
      cases hm : cfg.lastDoneMileage with
      | none => rw [hm] at h; simp at h
      | some lm =>
        rw [hm] at h
        by_cases hik : 0 < cfg.intervalKm
        · refine ⟨lm, rfl, hik, ?_⟩
          simpa [hik] using h
        · simp [hik] at h
    · right
      cases hd : cfg.lastDoneDate with
      | none => rw [hd] at h; simp at h
      | some ld =>
        rw [hd] at h
        by_cases him : 0 < cfg.intervalMonths
        · refine ⟨ld, rfl, him, ?_⟩
          simpa [him] using h
        · simp [him] at h
  · rintro (⟨lm, hm, hik, hle⟩ | ⟨ld, hd, him, hle⟩)
    · left
      rw [hm]
      simp [hik, hle]
    · right
      rw [hd]
      simp [him, hle]

/-- C7: with no last-done record at all the status is `"soon"` (not `"ok"`
or `"overdue"`); with history the status is `"overdue"` exactly when the
current mileage has reached `lastDoneMileage + intervalKm` (with
`intervalKm > 0` and a last-done mileage present) or today has reached
`lastDoneDate + intervalMonths` (with `intervalMonths > 0` and a last-done
date present); otherwise `"soon"` exactly when within 500 km of the next
due mileage or 14 days of the next due date, and `"ok"` otherwise.  At
`lastDone = 50000`, `intervalKm = 10000` the status at 59550 km is
`"soon"` and at 60000 km `"overdue"`. -/
theorem computeSuggestion_spec (today : CalDate) (v : Vehicle) (cfg : MaintCfg) :
    (cfg.lastDoneDate = none ∧ cfg.lastDoneMileage = none →
      (computeSuggestion today v cfg).status = "soon"
      ∧ (computeSuggestion today v cfg).noHistory = true)
    ∧ (¬(cfg.lastDoneDate = none ∧ cfg.lastDoneMileage = none) →
      ((computeSuggestion today v cfg).status = "overdue" ↔
        (∃ lm, cfg.lastDoneMileage = some lm ∧ 0 < cfg.intervalKm
          ∧ lm + cfg.intervalKm ≤ v.currentMileage)
        ∨ (∃ ld, cfg.lastDoneDate = some ld ∧ 0 < cfg.intervalMonths
          ∧ CalDate.le (addMonthsToISO ld cfg.intervalMonths) today))
      ∧ ((computeSuggestion today v cfg).status = "soon" ↔
        suggOverdue today v cfg = false
        ∧ ((∃ lm, cfg.lastDoneMileage = some lm ∧ 0 < cfg.intervalKm
            ∧ (lm + cfg.intervalKm) - v.currentMileage ≤ 500)
          ∨ (∃ ld, cfg.lastDoneDate = some ld ∧ 0 < cfg.intervalMonths
            ∧ CalDate.le (addMonthsToISO ld cfg.intervalMonths) (addDaysToISO today 14))))
      ∧ ((computeSuggestion today v cfg).status = "ok" ↔
        suggOverdue today v cfg = false ∧ suggDueSoon today v cfg = false))
    ∧ (computeSuggestion ⟨2024, 3, 10⟩ vehicleSample cfgSample).status = "soon"
    ∧ (computeSuggestion ⟨2024, 3, 10⟩
        { vehicleSample with currentMileage := 60000 } cfgSample).status = "overdue" := by
  have hstat : ∀ (t : CalDate) (vv : Vehicle) (c : MaintCfg),
      ¬(c.lastDoneDate = none ∧ c.lastDoneMileage = none) →
      (computeSuggestion t vv c).status =
        (if suggOverdue t vv c then "overdue"
         else if suggDueSoon t vv c then "soon" else "ok") := by
    intro t vv c hnh
    unfold computeSuggestion
    rw [if_neg hnh]
  refine ⟨fun hnh => ?_, fun hnh => ⟨?_, ?_, ?_⟩, ?_, ?_⟩
  · unfold computeSuggestion
    rw [if_pos hnh]
    exact ⟨rfl, rfl⟩
  · rw [hstat today v cfg hnh, ← suggOverdue_iff]
    by_cases ho : suggOverdue today v cfg = true
    · simp [ho]
    · rw [Bool.not_eq_true] at ho
      by_cases hs : suggDueSoon today v cfg = true
      · simp [ho, hs]
      · rw [Bool.not_eq_true] at hs
        simp [ho, hs]
  · rw [hstat today v cfg hnh, ← suggDueSoon_iff]
    by_cases ho : suggOverdue today v cfg = true
    · have : suggDueSoon today v cfg = false := by
        unfold suggDueSoon
        simp [ho]
      simp [ho, this]
    · rw [Bool.not_eq_true] at ho
      by_cases hs : suggDueSoon today v cfg = true
      · simp [ho, hs]
      · rw [Bool.not_eq_true] at hs
        simp [ho, hs]
  · rw [hstat today v cfg hnh]
    by_cases ho : suggOverdue today v cfg = true
    · simp [ho]
    · rw [Bool.not_eq_true] at ho
      by_cases hs : suggDueSoon today v cfg = true
      · simp [ho, hs]
      · rw [Bool.not_eq_true] at hs
        simp [ho, hs]
  · have hnh : ¬(cfgSample.lastDoneDate = none ∧ cfgSample.lastDoneMileage = none) := by
      simp [cfgSample]
    rw [hstat _ _ _ hnh]
    have hndm : nextDueMileageOf cfgSample = some 60000 := by
      unfold nextDueMileageOf
      norm_num [cfgSample]
    have ho : suggOverdue ⟨2024, 3, 10⟩ vehicleSample cfgSample = false := by
      unfold suggOverdue
      rw [hndm]
      norm_num [cfgSample, nextDueDateOf, vehicleSample]
    have hs : suggDueSoon ⟨2024, 3, 10⟩ vehicleSample cfgSample = true := by
      unfold suggDueSoon
      rw [ho, hndm]
      norm_num [cfgSample, nextDueDateOf, vehicleSample]
    rw [ho, hs]
    rfl
  · have hnh : ¬(cfgSample.lastDoneDate = none ∧ cfgSample.lastDoneMileage = none) := by
      simp [cfgSample]
    rw [hstat _ _ _ hnh]
    have hndm : nextDueMileageOf cfgSample = some 60000 := by
      unfold nextDueMileageOf
      norm_num [cfgSample]
    have ho : suggOverdue ⟨2024, 3, 10⟩
        { vehicleSample with currentMileage := 60000 } cfgSample = true := by
      unfold suggOverdue
      rw [hndm]
      norm_num [cfgSample, nextDueDateOf, vehicleSample]
    rw [ho]
    rfl

/-- C7 witness: `computeSuggestion_spec`'s no-history clause at a config
with no last-done record, and its overdue-iff clause at the sample
config. -/
theorem computeSuggestion_spec_witness :
    ((computeSuggestion ⟨2024, 3, 10⟩ vehicleSample
        { itemCode := "coolant", intervalKm := 0, intervalMonths := 36,
          lastDoneMileage := none, lastDoneDate := none }).status = "soon"
      ∧ (computeSuggestion ⟨2024, 3, 10⟩ vehicleSample
        { itemCode := "coolant", intervalKm := 0, intervalMonths := 36,
          lastDoneMileage := none, lastDoneDate := none }).noHistory = true)
    ∧ ((computeSuggestion ⟨2024, 3, 10⟩ vehicleSample cfgSample).status = "ok" ↔
        suggOverdue ⟨2024, 3, 10⟩ vehicleSample cfgSample = false
        ∧ suggDueSoon ⟨2024, 3, 10⟩ vehicleSample cfgSample = false) :=
  ⟨(computeSuggestion_spec ⟨2024, 3, 10⟩ vehicleSample
      { itemCode := "coolant", intervalKm := 0, intervalMonths := 36,
        lastDoneMileage := none, lastDoneDate := none }).1 ⟨rfl, rfl⟩,
   ((computeSuggestion_spec ⟨2024, 3, 10⟩ vehicleSample cfgSample).2.1
      (by simp [cfgSample])).2.2⟩

/-- C8: vehicle mileage is monotonic: both logging flows set the stored
mileage to the maximum of the stored and logged values — the stored value
never decreases, a lower logged mileage leaves the vehicle unchanged, and
the stored value changes only when the logged mileage is strictly
greater. -/
theorem vehicleMileage_monotonic (v : Vehicle) (m : Rat) :
    (serviceLogUpdateMileage v m).currentMileage = max v.currentMileage m
    ∧ (mileageLogUpdateMileage v m).currentMileage = max v.currentMileage m
    ∧ v.currentMileage ≤ (serviceLogUpdateMileage v m).currentMileage
    ∧ v.currentMileage ≤ (mileageLogUpdateMileage v m).currentMileage
    ∧ (m < v.currentMileage →
        serviceLogUpdateMileage v m = v ∧ mileageLogUpdateMileage v m = v)
    ∧ ((serviceLogUpdateMileage v m).currentMileage ≠ v.currentMileage →
        v.currentMileage < m)
    ∧ ((mileageLogUpdateMileage v m).currentMileage ≠ v.currentMileage →
        v.currentMileage < m) := by
  unfold serviceLogUpdateMileage mileageLogUpdateMileage
  by_cases h : v.currentMileage < m
  · have hnm : ¬(m < v.currentMileage) := by linarith
    simp only [if_pos h, if_neg hnm]
    exact ⟨(max_eq_right (le_of_lt h)).symm, (max_eq_right (le_of_lt h)).symm,
      le_of_lt h, le_of_lt h, fun hc => absurd hc hnm, fun _ => h, fun _ => h⟩
  · have hle : m ≤ v.currentMileage := not_lt.mp h
    simp only [if_neg h]
    by_cases hm : m < v.currentMileage
    · simp only [if_pos hm]
      exact ⟨(max_eq_left hle).symm, (max_eq_left hle).symm, le_refl _, le_refl _,
        fun _ => by simp, fun hc => absurd rfl hc, fun hc => absurd rfl hc⟩
    · have heq : m = v.currentMileage := le_antisymm hle (not_lt.mp hm)
      simp only [if_neg hm]
      exact ⟨(max_eq_left hle).symm, heq.trans (max_eq_left hle).symm, le_refl _,
        le_of_eq heq.symm, fun hc => absurd hc hm, fun hc => absurd rfl hc,
        fun hc => absurd heq hc⟩

/-- C8 witness: `vehicleMileage_monotonic`'s lower-logged-mileage clause at
the sample vehicle (stored 59550 km) and a 100 km log. -/
theorem vehicleMileage_monotonic_witness :
    serviceLogUpdateMileage vehicleSample 100 = vehicleSample
    ∧ mileageLogUpdateMileage vehicleSample 100 = vehicleSample :=
  (vehicleMileage_monotonic vehicleSample 100).2.2.2.2.1 (by decide)

theorem listLexLt_irrefl : ∀ l : List Char, listLexLt l l = false := by
  intro l
  induction l with
  | nil => rfl
  | cons x xs ih =>
    unfold listLexLt charLt
    simp [ih]

theorem listLexLt_asymm : ∀ (a b : List Char),
    listLexLt a b = true → listLexLt b a = false := by
  intro a
  induction a with
  | nil =>
    intro b h
    cases b with
    | nil => simp [listLexLt] at h
    | cons y bs => rfl
  | cons x as ih =>
    intro b h
    cases b with
    | nil => simp [listLexLt] at h
    | cons y bs =>
      unfold listLexLt charLt at h ⊢
      by_cases hxy : x.toNat < y.toNat
      · have hyx : ¬(y.toNat < x.toNat) := by omega
        simp [hxy, hyx]
      · by_cases hyx : y.toNat < x.toNat
        · simp [hxy, hyx] at h
        · have ht : listLexLt as bs = true := by simpa [hxy, hyx] using h
          simp [hxy, hyx, ih bs ht]

theorem listLexLt_trans : ∀ (a b c : List Char),
    listLexLt a b = true → listLexLt b c = true → listLexLt a c = true := by
  intro a
  induction a with
  | nil =>
    intro b c h1 h2
    cases b with
    | nil => exact h2
    | cons y bs =>
      cases c with
      | nil => simp [listLexLt] at h2
      | cons z cs => rfl
  | cons x as ih =>
    intro b c h1 h2
    cases b with
    | nil => simp [listLexLt] at h1
    | cons y bs =>
      cases c with
      | nil => simp [listLexLt] at h2
      | cons z cs =>
        unfold listLexLt charLt at h1 h2 ⊢
        by_cases hxy : x.toNat < y.toNat
        · by_cases hyz : y.toNat < z.toNat
          · have hxz : x.toNat < z.toNat := Nat.lt_trans hxy hyz
            simp [hxz]
          · by_cases hzy : z.toNat < y.toNat
            · simp [hyz, hzy] at h2
            · have hxz : x.toNat < z.toNat := by omega
              simp [hxz]
        · by_cases hyx : y.toNat < x.toNat
          · simp [hxy, hyx] at h1
          · by_cases hyz : y.toNat < z.toNat
            · have hxz : x.toNat < z.toNat := by omega
              simp [hxz]
            · by_cases hzy : z.toNat < y.toNat
              · simp [hyz, hzy] at h2
              · have h1t : listLexLt as bs = true := by simpa [hxy, hyx] using h1
                have h2t : listLexLt bs cs = true := by simpa [hyz, hzy] using h2
                have hxz : ¬(x.toNat < z.toNat) := by omega
                have hzx : ¬(z.toNat < x.toNat) := by omega
                simp [hxz, hzx, ih bs cs h1t h2t]

theorem listLexLt_connect : ∀ (a b : List Char),
    listLexLt a b = false → listLexLt b a = false → a = b := by
  intro a
  induction a with
  | nil =>
    intro b h1 _
    cases b with
    | nil => rfl
    | cons y bs => simp [listLexLt] at h1
  | cons x as ih =>
    intro b h1 h2
    cases b with
    | nil => simp [listLexLt] at h2
    | cons y bs =>
      unfold listLexLt charLt at h1 h2
      by_cases hxy : x.toNat < y.toNat
      · simp [hxy] at h1
      · by_cases hyx : y.toNat < x.toNat
        · simp [hxy, hyx] at h2
        · have hchar : x = y := by
            have hxyn : x.toNat = y.toNat := by omega
            have := congrArg Char.ofNat hxyn
            rwa [Char.ofNat_toNat, Char.ofNat_toNat] at this
          have h1t : listLexLt as bs = false := by simpa [hxy, hyx] using h1
          have h2t : listLexLt bs as = false := by simpa [hxy, hyx] using h2
          rw [hchar, ih bs h1t h2t]

theorem strLt_irrefl (a : String) : strLt a a = false := listLexLt_irrefl a.data

theorem strLt_asymm {a b : String} (h : strLt a b = true) : strLt b a = false :=
  listLexLt_asymm a.data b.data h

theorem strLt_trans {a b c : String} (h1 : strLt a b = true) (h2 : strLt b c = true) :
    strLt a c = true :=
  listLexLt_trans a.data b.data c.data h1 h2

theorem strLt_connect {a b : String} (h1 : strLt a b = false) (h2 : strLt b a = false) :
    a = b := by
  have hd := listLexLt_connect a.data b.data h1 h2
  cases a with
  | mk da =>
    cases b with
    | mk db =>
      have : da = db := hd
      rw [this]

theorem rowLE_trans : ∀ a b c : Row, rowLE a b → rowLE b c → rowLE a c := by
  intro a b c hab hbc
  unfold rowLE at hab hbc ⊢
  rcases hab with h1 | ⟨h1, h2⟩
  · rcases hbc with h3 | ⟨h3, _⟩
    · exact Or.inl (Nat.lt_trans h1 h3)
    · exact Or.inl (by omega)
  · rcases hbc with h3 | ⟨h3, h4⟩
    · exact Or.inl (by omega)
    · refine Or.inr ⟨by omega, ?_⟩
      rcases h2 with h2 | ⟨hd1, h2⟩
      · rcases h4 with h4 | ⟨hd2, _⟩
        · exact Or.inl (lt_trans h2 h4)
        · exact Or.inl (by rw [← hd2]; exact h2)
      · rcases h4 with h4 | ⟨hd2, h4⟩
        · exact Or.inl (by rw [hd1]; exact h4)
        · refine Or.inr ⟨hd1.trans hd2, ?_⟩
          rcases h2 with h2 | ⟨hg1, hg1r, hc1⟩
          · rcases h4 with h4 | ⟨hg2, hg2r, _⟩
            · exact Or.inl (strLt_trans h2 h4)
            · have heq : b.group = c.group := strLt_connect hg2 hg2r
              exact Or.inl (heq ▸ h2)
          · rcases h4 with h4 | ⟨hg2, hg2r, hc2⟩
            · have heq : a.group = b.group := strLt_connect hg1 hg1r
              exact Or.inl (heq ▸ h4)
            · have hab' : a.group = b.group := strLt_connect hg1 hg1r
              have hbc' : b.group = c.group := strLt_connect hg2 hg2r
              refine Or.inr ⟨?_, ?_, ?_⟩
              · rw [hab', hbc']
                exact strLt_irrefl _
              · rw [hab', hbc']
                exact strLt_irrefl _
              · rcases Bool.eq_false_or_eq_true (strLt c.category a.category) with h | h
                · exfalso
                  rcases Bool.eq_false_or_eq_true (strLt b.category c.category) with hb2 | hb2
                  · have := strLt_trans hb2 h
                    simp [this] at hc1
                  · have heq : b.category = c.category := strLt_connect hb2 hc2
                    rw [← heq] at h
                    simp [h] at hc1
                · exact h

theorem rowLE_total : ∀ a b : Row, rowLE a b ∨ rowLE b a := by
  intro a b
  unfold rowLE
  rcases Nat.lt_trichotomy (if a.type = "expense" then 0 else 1)
      (if b.type = "expense" then (0 : Nat) else 1) with hr | hr | hr
  · exact Or.inl (Or.inl hr)
  · rcases lt_trichotomy a.diff b.diff with hd | hd | hd
    · exact Or.inl (Or.inr ⟨hr, Or.inl hd⟩)
    · rcases Bool.eq_false_or_eq_true (strLt a.group b.group) with hg | hg
      · exact Or.inl (Or.inr ⟨hr, Or.inr ⟨hd, Or.inl hg⟩⟩)
      · rcases Bool.eq_false_or_eq_true (strLt b.group a.group) with hg' | hg'
        · exact Or.inr (Or.inr ⟨hr.symm, Or.inr ⟨hd.symm, Or.inl hg'⟩⟩)
        · rcases Bool.eq_false_or_eq_true (strLt b.category a.category) with hc | hc
          · have hc' : strLt a.category b.category = false := strLt_asymm hc
            exact Or.inr (Or.inr ⟨hr.symm, Or.inr ⟨hd.symm, Or.inr ⟨hg', hg, hc'⟩⟩⟩)
          · exact Or.inl (Or.inr ⟨hr, Or.inr ⟨hd, Or.inr ⟨hg, hg', hc⟩⟩⟩)
    · exact Or.inr (Or.inr ⟨hr.symm, Or.inl hd⟩)
  · exact Or.inr (Or.inl hr)

instance : IsTrans Row rowLE := ⟨rowLE_trans⟩

instance : IsTotal Row rowLE := ⟨rowLE_total⟩

theorem mem_rowMapUpsert (P : Row → Prop) {m : RowMap} {k : String} {init : Row}
    {f : Row → Row} (hm : ∀ q ∈ m, P q.2) (hf : ∀ r, P r → P (f r))
    (hi : P (f init)) : ∀ q ∈ rowMapUpsert m k init f, P q.2 := by
  intro q hq
  unfold rowMapUpsert at hq
  split_ifs at hq with h
  · rcases List.mem_map.mp hq with ⟨p, hp, hpe⟩
    by_cases hpk : p.1 = k
    · rw [if_pos hpk] at hpe
      rw [← hpe]
      exact hf _ (hm p hp)
    · rw [if_neg hpk] at hpe
      rw [← hpe]
      exact hm p hp
  · rcases List.mem_append.mp hq with h1 | h1
    · exact hm q h1
    · have := List.mem_singleton.mp h1
      rw [this]
      exact hi

theorem planStep_types (m : RowMap) (p : PlanItem)
    (hm : ∀ q ∈ m, q.2.type = "income" ∨ q.2.type = "expense") :
    ∀ q ∈ planStep m p, q.2.type = "income" ∨ q.2.type = "expense" := by
  intro q hq
  unfold planStep at hq
  dsimp only at hq
  by_cases hgc : jsTrim p.group = "" ∧ jsTrim p.category = ""
  · rw [if_pos hgc] at hq
    exact hm q hq
  · rw [if_neg hgc] at hq
    refine mem_rowMapUpsert (fun r => r.type = "income" ∨ r.type = "expense") hm (fun r hr => by simpa using hr) ?_ q hq
    by_cases ht : p.type = "income" <;> simp [ht]

theorem txStep_types (m : RowMap) (t : Tx)
    (hm : ∀ q ∈ m, q.2.type = "income" ∨ q.2.type = "expense") :
    ∀ q ∈ txStep m t, q.2.type = "income" ∨ q.2.type = "expense" := by
  intro q hq
  unfold txStep at hq
  dsimp only at hq
  refine mem_rowMapUpsert (fun r => r.type = "income" ∨ r.type = "expense") hm (fun r hr => by simpa using hr) ?_ q hq
  by_cases ht : t.type = "income" <;> simp [ht]

theorem foldl_planStep_types (plan : List PlanItem) (m : RowMap)
    (hm : ∀ q ∈ m, q.2.type = "income" ∨ q.2.type = "expense") :
    ∀ q ∈ plan.foldl planStep m, q.2.type = "income" ∨ q.2.type = "expense" := by
  induction plan generalizing m with
  | nil => exact hm
  | cons p t ih => exact ih (planStep m p) (planStep_types m p hm)

theorem foldl_txStep_types (txs : List Tx) (m : RowMap)
    (hm : ∀ q ∈ m, q.2.type = "income" ∨ q.2.type = "expense") :
    ∀ q ∈ txs.foldl txStep m, q.2.type = "income" ∨ q.2.type = "expense" := by
  induction txs generalizing m with
  | nil => exact hm
  | cons t ts ih => exact ih (txStep m t) (txStep_types m t hm)

theorem groupRows_types (plan : List PlanItem) (txs : List Tx) :
    ∀ q ∈ groupRows plan txs, q.2.type = "income" ∨ q.2.type = "expense" := by
  unfold groupRows
  exact foldl_txStep_types txs _ (foldl_planStep_types plan [] (by simp))

theorem rowMapUpsert_keys (m : RowMap) (k : String) (init : Row) (f : Row → Row) :
    (rowMapUpsert m k init f).map Prod.fst =
      if m.any (fun p => decide (p.1 = k)) then m.map Prod.fst
      else m.map Prod.fst ++ [k] := by
  unfold rowMapUpsert
  split_ifs with h
  · rw [List.map_map]
    apply List.map_congr_left
    intro p _
    by_cases hp : p.1 = k
    · simp [hp, Function.comp]
    · simp [hp, Function.comp]
  · simp

theorem rowMapUpsert_keys_nodup (m : RowMap) (k : String) (init : Row) (f : Row → Row)
    (h : (m.map Prod.fst).Nodup) : ((rowMapUpsert m k init f).map Prod.fst).Nodup := by
  rw [rowMapUpsert_keys]
  split_ifs with hk
  · exact h
  · have : k ∉ m.map Prod.fst := by
      intro hm
      rcases List.mem_map.mp hm with ⟨p, hp, hpe⟩
      have : m.any (fun p => decide (p.1 = k)) = true := by
        rw [List.any_eq_true]
        exact ⟨p, hp, by simp [hpe]⟩
      simp [this] at hk
    simp [List.nodup_append, h, this]

theorem planStep_keys_nodup (m : RowMap) (p : PlanItem)
    (h : (m.map Prod.fst).Nodup) : ((planStep m p).map Prod.fst).Nodup := by
  unfold planStep
  dsimp only
  by_cases hgc : jsTrim p.group = "" ∧ jsTrim p.category = ""
  · rw [if_pos hgc]
    exact h
  · rw [if_neg hgc]
    exact rowMapUpsert_keys_nodup _ _ _ _ h

theorem txStep_keys_nodup (m : RowMap) (t : Tx)
    (h : (m.map Prod.fst).Nodup) : ((txStep m t).map Prod.fst).Nodup := by
  unfold txStep
  dsimp only
  exact rowMapUpsert_keys_nodup _ _ _ _ h

theorem groupRows_keys_nodup (plan : List PlanItem) (txs : List Tx) :
    ((groupRows plan txs).map Prod.fst).Nodup := by
  unfold groupRows
  have hbase : ∀ (l : List PlanItem) (m : RowMap), (m.map Prod.fst).Nodup →
      ((l.foldl planStep m).map Prod.fst).Nodup := by
    intro l
    induction l with
    | nil => exact fun m hm => hm
    | cons p t ih => exact fun m hm => ih (planStep m p) (planStep_keys_nodup m p hm)
  have htx : ∀ (l : List Tx) (m : RowMap), (m.map Prod.fst).Nodup →
      ((l.foldl txStep m).map Prod.fst).Nodup := by
    intro l
    induction l with
    | nil => exact fun m hm => hm
    | cons t ts ih => exact fun m hm => ih (txStep m t) (txStep_keys_nodup m t hm)
  exact htx txs _ (hbase plan [] (by simp))

theorem classifyRow_fields (r0 : Row) :
    (classifyRow r0).type = r0.type
    ∧ (classifyRow r0).planned = r0.planned
    ∧ (classifyRow r0).actual = r0.actual
    ∧ (classifyRow r0).group = r0.group
    ∧ (classifyRow r0).category = r0.category := by
  unfold classifyRow
  dsimp only
  split_ifs <;> exact ⟨rfl, rfl, rfl, rfl, rfl⟩

theorem classifyRow_diff (r0 : Row) :
    (classifyRow r0).diff =
      (if r0.type = "expense" then r0.planned - r0.actual else r0.actual - r0.planned) := by
  unfold classifyRow
  dsimp only
  split_ifs <;> rfl

theorem classifyRow_notPlanned (r0 : Row) (h1 : r0.type = "expense")
    (h2 : r0.planned = 0 ∧ 0 < r0.actual) :
    (classifyRow r0).status = "Not planned" ∧ (classifyRow r0).badge = "warn" := by
  unfold classifyRow
  rw [if_pos h1]
  dsimp only
  rw [if_pos h2]
  exact ⟨rfl, rfl⟩

theorem classifyRow_withinPlan (r0 : Row) (h1 : r0.type = "expense")
    (h2 : ¬(r0.planned = 0 ∧ 0 < r0.actual)) (h3 : 0 ≤ r0.planned - r0.actual) :
    (classifyRow r0).status = "Good (within plan)" ∧ (classifyRow r0).badge = "ok" := by
  unfold classifyRow
  rw [if_pos h1]
  dsimp only
  rw [if_neg h2, if_pos h3]
  exact ⟨rfl, rfl⟩

theorem classifyRow_overBudget (r0 : Row) (h1 : r0.type = "expense")
    (h2 : ¬(r0.planned = 0 ∧ 0 < r0.actual)) (h3 : r0.planned - r0.actual < 0) :
    (classifyRow r0).status = "Over budget" ∧ (classifyRow r0).badge = "bad" := by
  unfold classifyRow
  rw [if_pos h1]
  dsimp only
  rw [if_neg h2, if_neg (not_le.mpr h3)]
  exact ⟨rfl, rfl⟩

theorem classifyRow_extraIncome (r0 : Row) (h1 : ¬(r0.type = "expense"))
    (h2 : r0.planned = 0 ∧ 0 < r0.actual) :
    (classifyRow r0).status = "Extra income" ∧ (classifyRow r0).badge = "ok" := by
  unfold classifyRow
  rw [if_neg h1]
  dsimp only
  rw [if_pos h2]
  exact ⟨rfl, rfl⟩

theorem classifyRow_abovePlan (r0 : Row) (h1 : ¬(r0.type = "expense"))
    (h2 : ¬(r0.planned = 0 ∧ 0 < r0.actual)) (h3 : 0 < r0.actual - r0.planned) :
    (classifyRow r0).status = "Good (above plan)" ∧ (classifyRow r0).badge = "ok" := by
  unfold classifyRow
  rw [if_neg h1]
  dsimp only
  rw [if_neg h2, if_pos h3]
  exact ⟨rfl, rfl⟩

theorem classifyRow_onPlan (r0 : Row) (h1 : ¬(r0.type = "expense"))
    (h2 : ¬(r0.planned = 0 ∧ 0 < r0.actual)) (h3 : r0.actual - r0.planned = 0) :
    (classifyRow r0).status = "On plan" ∧ (classifyRow r0).badge = "ok" := by
  unfold classifyRow
  rw [if_neg h1]
  dsimp only
  rw [if_neg h2, if_neg (by rw [h3]; exact lt_irrefl 0), if_pos h3]
  exact ⟨rfl, rfl⟩

theorem classifyRow_belowPlan (r0 : Row) (h1 : ¬(r0.type = "expense"))
    (h2 : ¬(r0.planned = 0 ∧ 0 < r0.actual)) (h3 : r0.actual - r0.planned < 0) :
    (classifyRow r0).status = "Below plan" ∧ (classifyRow r0).badge = "warn" := by
  unfold classifyRow
  rw [if_neg h1]
  dsimp only
  rw [if_neg h2, if_neg (by intro hc; linarith), if_neg (by intro hc; linarith)]
  exact ⟨rfl, rfl⟩

theorem rowLE_implies_claimOrder {a b : Row}
    (ha : a.type = "income" ∨ a.type = "expense")
    (hb : b.type = "income" ∨ b.type = "expense") (h : rowLE a b) :
    (a.type = "expense" ∧ b.type = "income")
    ∨ (a.type = b.type
      ∧ (a.diff < b.diff
        ∨ (a.diff = b.diff
          ∧ (strLt a.group b.group = true
            ∨ (a.group = b.group ∧ strLt b.category a.category = false))))) := by
  unfold rowLE at h
  rcases h with h | ⟨h1, h2⟩
  · by_cases hat : a.type = "expense" <;> by_cases hbt : b.type = "expense" <;>
      simp [hat, hbt] at h
    exact Or.inl ⟨hat, hb.resolve_right hbt⟩
  · have hts : a.type = b.type := by
      by_cases hat : a.type = "expense" <;> by_cases hbt : b.type = "expense" <;>
        simp [hat, hbt] at h1
      · rw [hat, hbt]
      · rw [ha.resolve_right hat, hb.resolve_right hbt]
    refine Or.inr ⟨hts, ?_⟩
    rcases h2 with h2 | ⟨hd, h3⟩
    · exact Or.inl h2
    · refine Or.inr ⟨hd, ?_⟩
      rcases h3 with h3 | ⟨hf1, hf2, hf3⟩
      · exact Or.inl h3
      · exact Or.inr ⟨strLt_connect hf1 hf2, hf3⟩

/-- C5: `buildMonthlyRows` groups plan items and transactions by the
case-insensitive trimmed `(group, category, type)` key (each key appears
once), computes for expense rows `diff = planned - actual` with statuses
Not planned (warn, when nothing was planned but money was spent), Good
(within plan) (ok, `diff ≥ 0`) and Over budget (bad, `diff < 0`); for
income rows `diff = actual - planned` with Extra income, Good (above
plan), On plan and Below plan (warn); and returns the rows sorted with all
expense rows before income rows, then ascending by `diff`, ties broken
lexicographically by group then category. -/
theorem buildMonthlyRows_spec (plan : List PlanItem) (txs : List Tx) :
    (∀ r ∈ buildMonthlyRows plan txs,
      (r.type = "income" ∨ r.type = "expense")
      ∧ (r.type = "expense" →
          r.diff = r.planned - r.actual
          ∧ (r.planned = 0 ∧ 0 < r.actual →
              r.status = "Not planned" ∧ r.badge = "warn")
          ∧ (¬(r.planned = 0 ∧ 0 < r.actual) → 0 ≤ r.diff →
              r.status = "Good (within plan)" ∧ r.badge = "ok")
          ∧ (¬(r.planned = 0 ∧ 0 < r.actual) → r.diff < 0 →
              r.status = "Over budget" ∧ r.badge = "bad"))
      ∧ (r.type = "income" →
          r.diff = r.actual - r.planned
          ∧ (r.planned = 0 ∧ 0 < r.actual →
              r.status = "Extra income" ∧ r.badge = "ok")
          ∧ (¬(r.planned = 0 ∧ 0 < r.actual) → 0 < r.diff →
              r.status = "Good (above plan)" ∧ r.badge = "ok")
          ∧ (¬(r.planned = 0 ∧ 0 < r.actual) → r.diff = 0 →
              r.status = "On plan" ∧ r.badge = "ok")
          ∧ (¬(r.planned = 0 ∧ 0 < r.actual) → r.diff < 0 →
              r.status = "Below plan" ∧ r.badge = "warn")))
    ∧ (buildMonthlyRows plan txs).Perm
        ((groupRows plan txs).map (fun p => classifyRow p.2))
    ∧ List.Sorted (fun a b : Row =>
        (a.type = "expense" ∧ b.type = "income")
        ∨ (a.type = b.type
          ∧ (a.diff < b.diff
            ∨ (a.diff = b.diff
              ∧ (strLt a.group b.group = true
                ∨ (a.group = b.group ∧ strLt b.category a.category = false))))))
        (buildMonthlyRows plan txs)
    ∧ ((groupRows plan txs).map Prod.fst).Nodup := by
  have hperm : (buildMonthlyRows plan txs).Perm
      ((groupRows plan txs).map (fun p => classifyRow p.2)) :=
    List.perm_insertionSort rowLE _
  have hmem : ∀ r ∈ buildMonthlyRows plan txs,
      ∃ r0 ∈ groupRows plan txs, r = classifyRow r0.2 := by
    intro r hr
    have hin : r ∈ (groupRows plan txs).map (fun p => classifyRow p.2) :=
      hperm.mem_iff.mp hr
    rcases List.mem_map.mp hin with ⟨p, hp, hpe⟩
    exact ⟨p, hp, hpe.symm⟩
  have htypes : ∀ r ∈ buildMonthlyRows plan txs,
      r.type = "income" ∨ r.type = "expense" := by
    intro r hr
    rcases hmem r hr with ⟨r0, hr0, rfl⟩
    rw [(classifyRow_fields r0.2).1]
    exact groupRows_types plan txs r0 hr0
  refine ⟨?_, hperm, ?_, groupRows_keys_nodup plan txs⟩
  · intro r hr
    rcases hmem r hr with ⟨r0, hr0, rfl⟩
    obtain ⟨hty, hpl, hac, _, _⟩ := classifyRow_fields r0.2
    refine ⟨htypes _ hr, fun hexp => ?_, fun hinc => ?_⟩
    · have hty0 : r0.2.type = "expense" := by rw [← hty]; exact hexp
      refine ⟨?_, fun hnp => ?_, fun hnp hge => ?_, fun hnp hlt => ?_⟩
      · rw [classifyRow_diff, if_pos hty0, hpl, hac]
      · exact classifyRow_notPlanned r0.2 hty0 (by rw [hpl, hac] at hnp; exact hnp)
      · refine classifyRow_withinPlan r0.2 hty0 (by rw [hpl, hac] at hnp; exact hnp) ?_
        rw [classifyRow_diff, if_pos hty0] at hge
        exact hge
      · refine classifyRow_overBudget r0.2 hty0 (by rw [hpl, hac] at hnp; exact hnp) ?_
        rw [classifyRow_diff, if_pos hty0] at hlt
        exact hlt
    · have hty0 : r0.2.type = "income" := by rw [← hty]; exact hinc
      have hne : ¬(r0.2.type = "expense") := by
        rw [hty0]
        intro hc
        exact absurd hc (by decide)
      refine ⟨?_, fun hnp => ?_, fun hnp hgt => ?_, fun hnp heq => ?_, fun hnp hlt => ?_⟩
      · rw [classifyRow_diff, if_neg hne, hpl, hac]
      · exact classifyRow_extraIncome r0.2 hne (by rw [hpl, hac] at hnp; exact hnp)
      · refine classifyRow_abovePlan r0.2 hne (by rw [hpl, hac] at hnp; exact hnp) ?_
        rw [classifyRow_diff, if_neg hne] at hgt
        exact hgt
      · refine classifyRow_onPlan r0.2 hne (by rw [hpl, hac] at hnp; exact hnp) ?_
        rw [classifyRow_diff, if_neg hne] at heq
        exact heq
      · refine classifyRow_belowPlan r0.2 hne (by rw [hpl, hac] at hnp; exact hnp) ?_
        rw [classifyRow_diff, if_neg hne] at hlt
        exact hlt
  · have hsorted : List.Sorted rowLE (buildMonthlyRows plan txs) :=
      List.sorted_insertionSort rowLE _
    exact List.Pairwise.imp_of_mem
      (fun ha hb hab => rowLE_implies_claimOrder (htypes _ ha) (htypes _ hb) hab) hsorted

/-- C5 witness: `buildMonthlyRows_spec` at the one-item sample plan and no
transactions, evaluated at the single resulting row. -/
theorem buildMonthlyRows_spec_witness :
    (classifyRow rowSample).type = "income" ∨ (classifyRow rowSample).type = "expense" :=
  ((buildMonthlyRows_spec [planItemSample] []).1 (classifyRow rowSample)
    (show classifyRow rowSample ∈ buildMonthlyRows [planItemSample] [] from
      List.mem_singleton_self _)).1
